import Mathlib

/-!
Shallow embedding of the `miro` terminal emulator model (`src/term/src/lib.rs`).

The terminal state machine, screen model, cell grid, key translation and the
handlers for parser events are translated directly from `lib.rs`.  The CSI
action decoder (`csi.rs`), the color type (`color.rs`) and the byte-level
`vte` state machine are not part of the shipped sources; where claims need
them they are modelled from the specification and marked as such in their
doc comments.
-/

set_option autoImplicit false
set_option maxRecDepth 10000

namespace Miro

/-! ### Generic list helpers

These mirror the `Vec` operations used by the Rust source: in-place update,
`Vec::remove`, `Vec::insert`, iterated removal/insertion at a fixed index.
Out-of-range indices leave the list unchanged; every use in the development
is guarded by hypotheses matching the bounds that hold in the Rust code.
-/

/-- Replace the element at index `i` by `f` of it; no-op when out of range. -/
def updateAt {α : Type} : List α → Nat → (α → α) → List α
  | [], _, _ => []
  | a :: l, 0, f => f a :: l
  | a :: l, n + 1, f => a :: updateAt l n f

/-- `Vec::remove(i)`: delete the element at index `i`. -/
def eraseAt {α : Type} : List α → Nat → List α
  | [], _ => []
  | _ :: l, 0 => l
  | a :: l, n + 1 => a :: eraseAt l n

/-- `Vec::insert(i, x)`: insert `x` so that it ends up at index `i`. -/
def insertAt {α : Type} : List α → Nat → α → List α
  | l, 0, x => x :: l
  | [], _ + 1, _ => []
  | a :: l, n + 1, x => a :: insertAt l n x

/-- Remove `n` elements at the fixed index `i` (as the Rust loop calling
`Vec::remove(i)` `n` times does). -/
def removeN {α : Type} : List α → Nat → Nat → List α
  | l, _, 0 => l
  | l, i, n + 1 => removeN (eraseAt l i) i n

/-- Insert `n` copies of `x` at the fixed index `i` (as the Rust loop calling
`Vec::insert(i, x)` `n` times does). -/
def insertN {α : Type} : List α → Nat → Nat → α → List α
  | l, _, 0, _ => l
  | l, i, n + 1, x => insertN (insertAt l i x) i n x

/-- The bytes of an ASCII string (used for answerback byte strings). -/
def strBytes (s : String) : List Nat := s.data.map Char.toNat

/-- UTF-8 encoding of a code point, as `char::encode_utf8` produces it. -/
def utf8Encode (n : Nat) : List Nat :=
  if n < 0x80 then [n]
  else if n < 0x800 then
    [0xC0 ||| (n >>> 6), 0x80 ||| (n &&& 0x3F)]
  else if n < 0x10000 then
    [0xE0 ||| (n >>> 12), 0x80 ||| ((n >>> 6) &&& 0x3F), 0x80 ||| (n &&& 0x3F)]
  else
    [0xF0 ||| (n >>> 18), 0x80 ||| ((n >>> 12) &&& 0x3F),
     0x80 ||| ((n >>> 6) &&& 0x3F), 0x80 ||| (n &&& 0x3F)]

/-- `n as usize` on an `i64` value: two's-complement wrap into `0..2^64`. -/
def usizeCast (n : Int) : Nat := (n % 18446744073709551616).toNat

/-- The list of `Int` values in `a..b` (a Rust `Range<i64>` iteration). -/
def intRange (a b : Int) : List Int :=
  (List.range (b - a).toNat).map (fun i => a + i)

/-! ### Cells and attributes (`lib.rs`, `Cell` / `CellAttributes`)

`color.rs` is not among the shipped sources.  Modelled from the spec:
"Two color slots (foreground, background) each carrying a tagged union of
Default, PaletteIndex(0..=255), TrueColor(r,g,b)"; `lib.rs` additionally
uses the constructors `ColorAttribute::Foreground` and
`ColorAttribute::Background` as the two per-slot defaults.
-/

inductive ColorAttribute : Type
  | Foreground
  | Background
  | PaletteIndex (idx : Nat)
  | TrueColor (r g b : Nat)
deriving DecidableEq

/-- `Intensity` from `lib.rs` (`repr(u16)`): Normal = 0, Bold = 1, Half = 2. -/
inductive Intensity : Type
  | Normal
  | Bold
  | Half
deriving DecidableEq

def Intensity.toU16 : Intensity → Nat
  | .Normal => 0
  | .Bold => 1
  | .Half => 2

/-- `Underline` from `lib.rs` (`repr(u16)`): None = 0, Single = 1, Double = 2. -/
inductive Underline : Type
  | None
  | Single
  | Double
deriving DecidableEq

def Underline.toU16 : Underline → Nat
  | .None => 0
  | .Single => 1
  | .Double => 2

/-- `CellAttributes` from `lib.rs`: a packed `u16` attribute word plus the two
color slots. -/
structure CellAttributes : Type where
  attributes : Nat
  foreground : ColorAttribute
  background : ColorAttribute
deriving DecidableEq

namespace CellAttributes

/-- The `bitfield!`-generated boolean setter: clear bit `bitnum`, then set it
to `value` (`u16` arithmetic). -/
def setBit (a : CellAttributes) (bitnum : Nat) (value : Bool) : CellAttributes :=
  let attrValue := if value then 1 <<< bitnum else 0
  { a with attributes := (a.attributes &&& (0xFFFF ^^^ (1 <<< bitnum))) ||| attrValue }

/-- The `bitfield!`-generated field setter for a masked range of bits. -/
def setField (a : CellAttributes) (bitmask bitshift value : Nat) : CellAttributes :=
  let clear := 0xFFFF ^^^ (bitmask <<< bitshift)
  { a with attributes := (a.attributes &&& clear) ||| ((value &&& bitmask) <<< bitshift) }

def set_intensity (a : CellAttributes) (v : Intensity) : CellAttributes :=
  a.setField 0b11 0 v.toU16

def set_underline (a : CellAttributes) (v : Underline) : CellAttributes :=
  a.setField 0b1100 2 v.toU16

def set_italic (a : CellAttributes) (v : Bool) : CellAttributes := a.setBit 4 v

def set_blink (a : CellAttributes) (v : Bool) : CellAttributes := a.setBit 5 v

def set_reverse (a : CellAttributes) (v : Bool) : CellAttributes := a.setBit 6 v

def set_strikethrough (a : CellAttributes) (v : Bool) : CellAttributes := a.setBit 7 v

def set_halfbright (a : CellAttributes) (v : Bool) : CellAttributes := a.setBit 8 v

def set_invisible (a : CellAttributes) (v : Bool) : CellAttributes := a.setBit 9 v

/-- `CellAttributes::default()`. -/
def default : CellAttributes :=
  { attributes := 0, foreground := .Foreground, background := .Background }

end CellAttributes

/-- A grid cell.  The Rust `Cell` stores up to 8 bytes of UTF-8 in a fixed
array; `Cell::from_char` writes the encoding of one `char` into it, so a cell
produced by the terminal model is faithfully represented by that `char`. -/
structure Cell : Type where
  ch : Char
  attrs : CellAttributes
deriving DecidableEq

namespace Cell

def from_char (c : Char) (attr : CellAttributes) : Cell := { ch := c, attrs := attr }

/-- `Cell::default()`: a single space with default attributes. -/
def default : Cell := from_char ' ' CellAttributes.default

end Cell

/-- `Line` from `lib.rs`: a row of cells plus a dirty flag. -/
structure Line : Type where
  cells : List Cell
  dirty : Bool
deriving DecidableEq

namespace Line

/-- `Line::new(cols)`: `cols` default cells, dirty. -/
def new (cols : Nat) : Line := { cells := List.replicate cols Cell.default, dirty := true }

/-- `Line::as_str()`: recompose the line into a string. -/
def as_str (l : Line) : String := String.mk (l.cells.map Cell.ch)

def set_dirty (l : Line) : Line := { l with dirty := true }

def set_clean (l : Line) : Line := { l with dirty := false }

end Line

/-! ### Screen (`lib.rs`, `Screen`) -/

/-- Index into `Screen.lines` (`PhysRowIndex` in the source). -/
abbrev PhysRowIndex := Nat

/-- Signed index into the visible portion of the screen (`VisibleRowIndex`). -/
abbrev VisibleRowIndex := Int

/-- A visible-row range, standing for the Rust `Range<VisibleRowIndex>`
(fields `start` and `end`; `end` is a Lean keyword, hence `rstart`/`rend`). -/
structure VRange : Type where
  rstart : Int
  rend : Int
deriving DecidableEq

/-- `range.contains`-style check from `lib.rs` (`in_range`). -/
def in_range (value : Int) (range : VRange) : Prop :=
  range.rstart ≤ value ∧ value < range.rend

instance (value : Int) (range : VRange) : Decidable (in_range value range) :=
  inferInstanceAs (Decidable (And _ _))

/-- `Screen` from `lib.rs`. -/
structure Screen : Type where
  lines : List Line
  scrollback_size : Nat
  physical_rows : Nat
  physical_cols : Nat
deriving DecidableEq

namespace Screen

/-- `Screen::new`. -/
def new (physical_rows physical_cols scrollback_size : Nat) : Screen :=
  { lines := List.replicate physical_rows (Line.new physical_cols)
    scrollback_size
    physical_rows
    physical_cols }

/-- `Screen::resize`: on row growth append fresh lines at the bottom; rows are
never removed and the cursor is not touched. -/
def resize (s : Screen) (physical_rows physical_cols : Nat) : Screen :=
  let lines :=
    if physical_rows > s.physical_rows then
      s.lines ++ List.replicate (physical_rows - s.physical_rows) (Line.new physical_cols)
    else
      s.lines
  { s with lines, physical_rows, physical_cols }

/-- `Screen::phys_row`: translate a visible row into an index into `lines`.
The Rust code asserts `row >= 0`; callers in this development establish that. -/
def phys_row (s : Screen) (row : VisibleRowIndex) : PhysRowIndex :=
  (s.lines.length - s.physical_rows) + row.toNat

/-- `Screen::phys_range`. -/
def phys_range (s : Screen) (range : VRange) : Nat × Nat :=
  (s.phys_row range.rstart, s.phys_row range.rend)

/-- `Screen::dirty_line`: mark the line at a visible row dirty. -/
def dirty_line (s : Screen) (idx : VisibleRowIndex) : Screen :=
  { s with lines := updateAt s.lines (s.phys_row idx) Line.set_dirty }

/-- `Screen::set_cell`: mark the line dirty, pad it out to `x + 1` cells with
defaults if needed, then store the new cell. -/
def set_cell (s : Screen) (x : Nat) (y : VisibleRowIndex) (c : Char)
    (attr : CellAttributes) : Screen :=
  let line_idx := s.phys_row y
  { s with
    lines := updateAt s.lines line_idx (fun l =>
      let cells :=
        if x ≥ l.cells.length then
          l.cells ++ List.replicate (x + 1 - l.cells.length) Cell.default
        else l.cells
      { cells := updateAt cells x (fun _ => Cell.from_char c attr), dirty := true }) }

/-- `Screen::clear_line`: overwrite the cells with column index in
`cols.1 ≤ i < cols.2` by blank cells, stopping at the line width. -/
def clear_line (s : Screen) (y : VisibleRowIndex) (cols : Nat × Nat) : Screen :=
  let line_idx := s.phys_row y
  { s with
    lines := updateAt s.lines line_idx (fun l =>
      { cells := (List.range l.cells.length).zip l.cells |>.map (fun p =>
          if cols.1 ≤ p.1 ∧ p.1 < cols.2 then Cell.default else p.2)
        dirty := true }) }

/-- Mark the lines with physical index in `a ≤ i < b` dirty. -/
def setDirtyRange (lines : List Line) (a b : Nat) : List Line :=
  (List.range lines.length).zip lines |>.map (fun p =>
    if a ≤ p.1 ∧ p.1 < b then p.2.set_dirty else p.2)

/-- `Screen::scroll_up(region, num_rows)`: dirty the region, drop
`lines_removed` lines at the top of the region (all `num_rows` when the
region top is not the visible top, otherwise only the overflow past
`physical_rows + scrollback_size`), dirty the scrollback above a top-anchored
region, and insert `num_rows` fresh lines at the adjusted bottom. -/
def scroll_up (s : Screen) (region : VRange) (num_rows : Nat) : Screen :=
  let physStart := s.phys_row region.rstart
  let physEnd := s.phys_row region.rend
  let lines1 := setDirtyRange s.lines physStart physEnd
  let lines_removed :=
    if region.rstart > 0 then num_rows
    else
      let max_allowed := s.physical_rows + s.scrollback_size
      if lines1.length + num_rows ≥ max_allowed then
        lines1.length + num_rows - max_allowed
      else 0
  let lines2 := removeN lines1 physStart lines_removed
  let lines3 := if region.rstart = 0 then setDirtyRange lines2 0 physStart else lines2
  let lines4 := insertN lines3 (physEnd - lines_removed) num_rows (Line.new s.physical_cols)
  { s with lines := lines4 }

/-- `Screen::scroll_down(region, num_rows)`: remove `num_rows` lines at the
bottom of the region and insert fresh ones at the top. -/
def scroll_down (s : Screen) (region : VRange) (num_rows : Nat) : Screen :=
  let physStart := s.phys_row region.rstart
  let physEnd := s.phys_row region.rend
  let middle := physEnd - num_rows
  let lines1 := setDirtyRange s.lines physStart middle
  let lines2 := removeN lines1 middle num_rows
  let lines3 := insertN lines2 physStart num_rows (Line.new s.physical_cols)
  { s with lines := lines3 }

/-- The visible lines: the last `physical_rows` entries. -/
def visible_lines (s : Screen) : List Line :=
  s.lines.drop (s.lines.length - s.physical_rows)

end Screen

/-! ### Terminal state (`lib.rs`, `TerminalState`) -/

/-- `Position` from `lib.rs`: an absolute visible row/column or a delta
relative to the cursor. -/
inductive Position : Type
  | Absolute (v : Int)
  | Relative (v : Int)
deriving DecidableEq

/-- `CursorPosition` from `lib.rs`: 0-based column and visible row. -/
structure CursorPosition : Type where
  x : Nat
  y : VisibleRowIndex
deriving DecidableEq

instance : Inhabited CursorPosition := ⟨⟨0, 0⟩⟩

/-- `AnswerBack` from `lib.rs`. -/
inductive AnswerBack : Type
  | WriteToPty (bytes : List Nat)
  | TitleChanged (title : String)
deriving DecidableEq

/-- `DEVICE_IDENT`: the `\x1b[?6c` device-attributes response. -/
def DEVICE_IDENT : List Nat := strBytes "\x1b[?6c"

/-- `TerminalState` from `lib.rs`. -/
structure TerminalState : Type where
  screen : Screen
  alt_screen : Screen
  alt_screen_is_active : Bool
  pen : CellAttributes
  cursor : CursorPosition
  saved_cursor : CursorPosition
  wrap_next : Bool
  answerback : List AnswerBack
  scroll_region : VRange
  application_cursor_keys : Bool
  application_keypad : Bool
  bracketed_paste : Bool
deriving DecidableEq

namespace TerminalState

/-- `TerminalState::new`. -/
def new (physical_rows physical_cols scrollback_size : Nat) : TerminalState :=
  { screen := Screen.new physical_rows physical_cols scrollback_size
    alt_screen := Screen.new physical_rows physical_cols 0
    alt_screen_is_active := false
    pen := CellAttributes.default
    cursor := default
    saved_cursor := default
    wrap_next := false
    answerback := []
    scroll_region := ⟨0, physical_rows⟩
    application_cursor_keys := false
    application_keypad := false
    bracketed_paste := false }

/-- `TerminalState::screen()`: the active screen. -/
def activeScreen (t : TerminalState) : Screen :=
  if t.alt_screen_is_active then t.alt_screen else t.screen

/-- `TerminalState::screen_mut()` applied to a functional update. -/
def withActive (t : TerminalState) (f : Screen → Screen) : TerminalState :=
  if t.alt_screen_is_active then { t with alt_screen := f t.alt_screen }
  else { t with screen := f t.screen }

/-- Resolve the x `Position` argument of `set_cursor_pos`. -/
def resolveX (t : TerminalState) : Position → Int
  | .Relative dx => max ((t.cursor.x : Int) + dx) 0
  | .Absolute x => x

/-- Resolve the y `Position` argument of `set_cursor_pos`. -/
def resolveY (t : TerminalState) : Position → Int
  | .Relative dy => max (t.cursor.y + dy) 0
  | .Absolute y => y

/-- `TerminalState::set_cursor_pos`: clamp x and y at the right/bottom edges,
clear `wrap_next`, and dirty the old and new cursor lines. -/
def set_cursor_pos (t : TerminalState) (x y : Position) : TerminalState :=
  let xr := t.resolveX x
  let yr := t.resolveY y
  let rows := t.activeScreen.physical_rows
  let cols := t.activeScreen.physical_cols
  let old_y := t.cursor.y
  let new_y := min yr ((rows : Int) - 1)
  let t1 := { t with
    cursor := { x := (min xr ((cols : Int) - 1)).toNat, y := new_y }
    wrap_next := false }
  t1.withActive (fun s => (s.dirty_line old_y).dirty_line new_y)

/-- `TerminalState::scroll_up`: scroll the configured scroll region. -/
def scroll_up (t : TerminalState) (num_rows : Nat) : TerminalState :=
  t.withActive (fun s => s.scroll_up t.scroll_region num_rows)

/-- `TerminalState::scroll_down`. -/
def scroll_down (t : TerminalState) (num_rows : Nat) : TerminalState :=
  t.withActive (fun s => s.scroll_down t.scroll_region num_rows)

/-- `TerminalState::new_line`: scroll when at the bottom of the scroll region,
otherwise move down one row; optionally return to the first column. -/
def new_line (t : TerminalState) (move_to_first_column : Bool) : TerminalState :=
  let x : Nat := if move_to_first_column then 0 else t.cursor.x
  let y := t.cursor.y
  if y = t.scroll_region.rend - 1 then
    (t.scroll_up 1).set_cursor_pos (.Absolute (x : Int)) (.Absolute y)
  else
    t.set_cursor_pos (.Absolute (x : Int)) (.Absolute (y + 1))

/-- `TerminalState::push_answerback`. -/
def push_answerback (t : TerminalState) (buf : List Nat) : TerminalState :=
  { t with answerback := t.answerback ++ [AnswerBack.WriteToPty buf] }

/-- `TerminalState::reverse_index`: scroll down when at the top of the scroll
region, otherwise move the cursor up one line. -/
def reverse_index (t : TerminalState) : TerminalState :=
  let y := t.cursor.y
  if y = t.scroll_region.rstart then
    (t.scroll_down 1).set_cursor_pos (.Relative 0) (.Absolute y)
  else
    t.set_cursor_pos (.Relative 0) (.Absolute (y - 1))

/-- `TerminalState::resize`: resize both screens; the cursor, scroll region
and saved cursor are not adjusted. -/
def resize (t : TerminalState) (physical_rows physical_cols : Nat) : TerminalState :=
  { t with
    screen := t.screen.resize physical_rows physical_cols
    alt_screen := t.alt_screen.resize physical_rows physical_cols }

/-- `TerminalState::has_dirty_lines`: true when a visible line is dirty. -/
def has_dirty_lines (t : TerminalState) : Bool :=
  let s := t.activeScreen
  (s.lines.drop (s.lines.length - s.physical_rows)).any Line.dirty

/-- `TerminalState::get_dirty_lines`: the visible lines that are dirty, with
their viewport-relative indices. -/
def get_dirty_lines (t : TerminalState) : List (Nat × Line) :=
  let s := t.activeScreen
  ((s.lines.drop (s.lines.length - s.physical_rows)).enum.filter
    (fun p => p.2.dirty))

/-- `TerminalState::clean_dirty_lines`: clear the dirty flag of every stored
line of the active screen. -/
def clean_dirty_lines (t : TerminalState) : TerminalState :=
  t.withActive (fun s => { s with lines := s.lines.map Line.set_clean })

/-- `TerminalState::cursor_pos`. -/
def cursor_pos (t : TerminalState) : CursorPosition := t.cursor

end TerminalState

/-! ### Key translation (`lib.rs`, `TerminalState::key_down`) -/

/-- `KeyCode` from `lib.rs`. -/
inductive KeyCode : Type
  | Char (c : Char)
  | Unknown
  | Control
  | Alt
  | Meta
  | Super
  | Hyper
  | Shift
  | Left
  | Up
  | Right
  | Down
  | PageUp
  | PageDown
  | Home
  | End
deriving DecidableEq

/-- `KeyModifiers` from `lib.rs` (a `u8` bitflags value). -/
structure KeyModifiers : Type where
  ctrl : Bool
  alt : Bool
  meta : Bool
  superKey : Bool
  shift : Bool
deriving DecidableEq

/-- The bytes `TerminalState::key_down` writes to the pty for a key press.
The match arms are tried in source order: Ctrl+Shift chars translate by
`c as u8 - 0x40` (wrapping `u8` arithmetic), Ctrl chars by `c as u8 - 0x60`,
Alt chars set the high bit, and the result code point is UTF-8 encoded by
`char::encode_utf8`. -/
def key_down_bytes (key : KeyCode) (mods : KeyModifiers)
    (application_cursor_keys : Bool) : List Nat :=
  match key with
  | .Char c =>
    if mods.ctrl ∧ mods.shift ∧ c.toNat ≤ 0xff then
      utf8Encode ((c.toNat % 256 + 256 - 0x40) % 256)
    else if mods.ctrl ∧ c.toNat ≤ 0xff then
      utf8Encode ((c.toNat % 256 + 256 - 0x60) % 256)
    else if mods.alt ∧ c.toNat ≤ 0xff then
      utf8Encode ((c.toNat % 256) ||| 0x80)
    else
      utf8Encode c.toNat
  | .Up => if application_cursor_keys then strBytes "\x1bOA" else strBytes "\x1b[A"
  | .Down => if application_cursor_keys then strBytes "\x1bOB" else strBytes "\x1b[B"
  | .Right => if application_cursor_keys then strBytes "\x1bOC" else strBytes "\x1b[C"
  | .Left => if application_cursor_keys then strBytes "\x1bOD" else strBytes "\x1b[D"
  | .Home => if application_cursor_keys then strBytes "\x1bOH" else strBytes "\x1b[H"
  | .End => if application_cursor_keys then strBytes "\x1bOF" else strBytes "\x1b[F"
  | .PageUp => strBytes "\x1b[5~"
  | .PageDown => strBytes "\x1b[6~"
  | .Control | .Alt | .Meta | .Super | .Hyper | .Shift | .Unknown => []

/-! ### CSI actions (`lib.rs`, `csi_dispatch`)

The `CSIAction` variants below are exactly the ones `lib.rs` matches in
`csi_dispatch` (the match there is exhaustive).  `csi.rs` itself, which
decodes `(params, intermediates, final byte)` into these actions, is not
among the shipped sources; it is modelled from the spec further down.
-/

/-- `LineErase` (CSI `K`). -/
inductive LineErase : Type
  | ToRight
  | ToLeft
  | All
deriving DecidableEq

/-- `DisplayErase` (CSI `J`). -/
inductive DisplayErase : Type
  | Below
  | Above
  | All
  | SavedLines
deriving DecidableEq

/-- The DEC private modes `lib.rs` handles (spelled `BrackedPaste` there). -/
inductive DecPrivateMode : Type
  | ApplicationCursorKeys
  | BrackedPaste
deriving DecidableEq

/-- The CSI action enumeration consumed by `csi_dispatch` in `lib.rs`. -/
inductive CSIAction : Type
  | SetPen (pen : CellAttributes)
  | SetForegroundColor (color : ColorAttribute)
  | SetBackgroundColor (color : ColorAttribute)
  | SetIntensity (level : Intensity)
  | SetUnderline (level : Underline)
  | SetItalic (flag : Bool)
  | SetBlink (flag : Bool)
  | SetReverse (flag : Bool)
  | SetStrikethrough (flag : Bool)
  | SetInvisible (flag : Bool)
  | SetCursorXY (x y : Position)
  | EraseInLine (erase : LineErase)
  | EraseInDisplay (erase : DisplayErase)
  | SetDecPrivateMode (mode : DecPrivateMode) (flag : Bool)
  | DeviceStatusReport
  | ReportCursorPosition
  | SetScrollingRegion (top bottom : Int)
  | RequestDeviceAttributes
  | DeleteLines (n : Int)
  | InsertLines (n : Int)
  | SaveCursor
  | RestoreCursor
  | LinePosition (row : Position)
  | ScrollLines (amount : Int)
deriving DecidableEq

namespace TerminalState

/-- The cursor position report `format!("\x1b[{};{}R", row, col)` bytes. -/
def cprBytes (row : Int) (col : Nat) : List Nat :=
  strBytes ("\x1b[" ++ toString row ++ ";" ++ toString col ++ "R")

/-- One arm of the `csi_dispatch` match in `lib.rs`. -/
def applyCSIAction (t : TerminalState) : CSIAction → TerminalState
  | .SetPen pen => { t with pen }
  | .SetForegroundColor color => { t with pen := { t.pen with foreground := color } }
  | .SetBackgroundColor color => { t with pen := { t.pen with background := color } }
  | .SetIntensity level => { t with pen := t.pen.set_intensity level }
  | .SetUnderline level => { t with pen := t.pen.set_underline level }
  | .SetItalic flag => { t with pen := t.pen.set_italic flag }
  | .SetBlink flag => { t with pen := t.pen.set_blink flag }
  | .SetReverse flag => { t with pen := t.pen.set_reverse flag }
  | .SetStrikethrough flag => { t with pen := t.pen.set_strikethrough flag }
  | .SetInvisible flag => { t with pen := t.pen.set_invisible flag }
  | .SetCursorXY x y => t.set_cursor_pos x y
  | .EraseInLine erase =>
    let cx := t.cursor.x
    let cy := t.cursor.y
    let cols := t.activeScreen.physical_cols
    (match erase with
     | .ToRight => t.withActive (fun s => s.clear_line cy (cx, cols))
     | .ToLeft => t.withActive (fun s => s.clear_line cy (0, cx))
     | .All => t.withActive (fun s => s.clear_line cy (0, cols)))
  | .EraseInDisplay erase =>
    let cy := t.cursor.y
    let cols := t.activeScreen.physical_cols
    let rows : Int := t.activeScreen.physical_rows
    (match erase with
     | .Below =>
       t.withActive (fun s => (intRange cy rows).foldl (fun s y => s.clear_line y (0, cols)) s)
     | .Above =>
       t.withActive (fun s => (intRange 0 cy).foldl (fun s y => s.clear_line y (0, cols)) s)
     | .All =>
       t.withActive (fun s => (intRange 0 rows).foldl (fun s y => s.clear_line y (0, cols)) s)
     | .SavedLines => t)
  | .SetDecPrivateMode .ApplicationCursorKeys flag => { t with application_cursor_keys := flag }
  | .SetDecPrivateMode .BrackedPaste flag => { t with bracketed_paste := flag }
  | .DeviceStatusReport => t.push_answerback (strBytes "\x1b[0n")
  | .ReportCursorPosition => t.push_answerback (cprBytes (t.cursor.y + 1) (t.cursor.x + 1))
  | .SetScrollingRegion top bottom =>
    let rows : Int := t.activeScreen.physical_rows
    let top1 := min top (rows - 1)
    let bottom1 := min bottom (rows - 1)
    let top2 := if top1 > bottom1 then bottom1 else top1
    let bottom2 := if top1 > bottom1 then top1 else bottom1
    { t with scroll_region := ⟨top2, bottom2 + 1⟩ }
  | .RequestDeviceAttributes => t.push_answerback DEVICE_IDENT
  | .DeleteLines n =>
    if in_range t.cursor.y t.scroll_region then
      let region : VRange := ⟨t.cursor.y, t.scroll_region.rend⟩
      t.withActive (fun s => s.scroll_up region (usizeCast n))
    else t
  | .InsertLines n =>
    if in_range t.cursor.y t.scroll_region then
      let region : VRange := ⟨t.cursor.y, t.scroll_region.rend⟩
      t.withActive (fun s => s.scroll_down region (usizeCast n))
    else t
  | .SaveCursor => { t with saved_cursor := t.cursor }
  | .RestoreCursor =>
    t.set_cursor_pos (.Absolute (t.saved_cursor.x : Int)) (.Absolute t.saved_cursor.y)
  | .LinePosition row => t.set_cursor_pos (.Relative 0) row
  | .ScrollLines amount =>
    if amount > 0 then t.scroll_down (usizeCast amount)
    else t.scroll_up (usizeCast (-amount))

/-! ### The `vte::Perform` handlers of `TerminalState` -/

/-- `vte::Perform::print` for `TerminalState`: wrap-then-write semantics. -/
def print (t : TerminalState) (c : Char) : TerminalState :=
  let t := if t.wrap_next then t.new_line true else t
  let x := t.cursor.x
  let y := t.cursor.y
  let width := t.activeScreen.physical_cols
  let pen := t.pen
  let t := t.withActive (fun s => s.set_cell x y c pen)
  if x + 1 < width then t.set_cursor_pos (.Relative 1) (.Relative 0)
  else { t with wrap_next := true }

/-- `vte::Perform::execute` for `TerminalState`: LF/VT/FF, CR and BS are
handled; every other control byte is logged and leaves the state unchanged. -/
def execute (t : TerminalState) (byte : Nat) : TerminalState :=
  if byte = 0x0A ∨ byte = 0x0B ∨ byte = 0x0C then t.new_line true
  else if byte = 0x0D then t.set_cursor_pos (.Absolute 0) (.Relative 0)
  else if byte = 0x08 then t.set_cursor_pos (.Relative (-1)) (.Relative 0)
  else t

/-- `vte::Perform::esc_dispatch` for `TerminalState`: only `ESC \`,
`ESC =`, `ESC >`, `ESC M`, `ESC ( 0` and `ESC ( B` are recognized; every
other escape (including `ESC D` and `ESC E`) is logged and leaves the state
unchanged. -/
def esc_dispatch (t : TerminalState) (intermediates : List Nat) (byte : Nat) :
    TerminalState :=
  match intermediates, byte with
  | [], 0x5C => t
  | [], 0x3D => { t with application_keypad := true }
  | [], 0x3E => { t with application_keypad := false }
  | [], 0x4D => t.reverse_index
  | [0x28], 0x30 => t
  | [0x28], 0x42 => t
  | _, _ => t

/-- `vte::Perform::osc_dispatch` for `TerminalState`: only `OSC 0 ; title`
is handled, queueing a `TitleChanged` answerback. -/
def osc_dispatch (t : TerminalState) (osc : List String) : TerminalState :=
  match osc with
  | ["0", title] => { t with answerback := t.answerback ++ [AnswerBack.TitleChanged title] }
  | _ => t

end TerminalState

/-! ### The CSI decoder

Modelled from the spec: `csi.rs` (the `CSIParser` that turns
`(params, intermediates, ignore, final byte)` into `CSIAction` values) is not
among the shipped sources.  The table in spec section 4.E fixes the mapping
from final bytes to actions together with the parameter defaults ("Omitted
parameters become 1 (or the documented default).  Negative values are clamped
to the minimum valid for the operation.").
-/

/-- Modelled from the spec: read the `i`-th CSI parameter, treating an absent
or non-positive value as the default (spec section 4.E: omitted parameters
become 1 or the documented default; negative values are clamped to the
minimum valid). -/
def csiParam (params : List Int) (i : Nat) (dflt : Int) : Int :=
  match params.get? i with
  | some v => if v ≤ 0 then dflt else v
  | none => dflt

/-- Modelled from the spec: the actions for a single simple SGR code (spec
section 4.E, "SGR (m) details"). -/
def sgrCode (p : Int) : List CSIAction :=
  if p = 0 then [CSIAction.SetPen CellAttributes.default]
  else if p = 1 then [CSIAction.SetIntensity .Bold]
  else if p = 2 then [CSIAction.SetIntensity .Half]
  else if p = 22 then [CSIAction.SetIntensity .Normal]
  else if p = 3 then [CSIAction.SetItalic true]
  else if p = 23 then [CSIAction.SetItalic false]
  else if p = 4 then [CSIAction.SetUnderline .Single]
  else if p = 24 then [CSIAction.SetUnderline .None]
  else if p = 5 then [CSIAction.SetBlink true]
  else if p = 25 then [CSIAction.SetBlink false]
  else if p = 7 then [CSIAction.SetReverse true]
  else if p = 27 then [CSIAction.SetReverse false]
  else if p = 8 then [CSIAction.SetInvisible true]
  else if p = 28 then [CSIAction.SetInvisible false]
  else if p = 9 then [CSIAction.SetStrikethrough true]
  else if p = 29 then [CSIAction.SetStrikethrough false]
  else if 30 ≤ p ∧ p ≤ 37 then [CSIAction.SetForegroundColor (.PaletteIndex (p - 30).toNat)]
  else if p = 39 then [CSIAction.SetForegroundColor .Foreground]
  else if 40 ≤ p ∧ p ≤ 47 then [CSIAction.SetBackgroundColor (.PaletteIndex (p - 40).toNat)]
  else if p = 49 then [CSIAction.SetBackgroundColor .Background]
  else if 90 ≤ p ∧ p ≤ 97 then
    [CSIAction.SetForegroundColor (.PaletteIndex (p - 90 + 8).toNat)]
  else if 100 ≤ p ∧ p ≤ 107 then
    [CSIAction.SetBackgroundColor (.PaletteIndex (p - 100 + 8).toNat)]
  else []

/-- Modelled from the spec: SGR parameter decoding (spec section 4.E, "SGR (m)
details").  Yields the pen-updating actions of `CSIAction`. -/
def sgrParse : List Int → List CSIAction
  | [] => []
  | 38 :: 5 :: idx :: rest =>
    CSIAction.SetForegroundColor (.PaletteIndex (usizeCast idx % 256)) :: sgrParse rest
  | 48 :: 5 :: idx :: rest =>
    CSIAction.SetBackgroundColor (.PaletteIndex (usizeCast idx % 256)) :: sgrParse rest
  | 38 :: 2 :: r :: g :: b :: rest =>
    CSIAction.SetForegroundColor
      (.TrueColor (usizeCast r % 256) (usizeCast g % 256) (usizeCast b % 256)) :: sgrParse rest
  | 48 :: 2 :: r :: g :: b :: rest =>
    CSIAction.SetBackgroundColor
      (.TrueColor (usizeCast r % 256) (usizeCast g % 256) (usizeCast b % 256)) :: sgrParse rest
  | p :: rest => sgrCode p ++ sgrParse rest

/-- Modelled from the spec: the action list the CSI decoder produces for one
complete CSI sequence (spec section 4.E table), restricted to the actions
`lib.rs` consumes.  `ignore` set, or intermediates other than the `?` of DEC
private modes, yield no actions. -/
def csiParse (params : List Int) (intermediates : List Nat) (ignore : Bool)
    (final : Char) : List CSIAction :=
  if ignore then []
  else if intermediates = [0x3F] then
    (if final = 'h' ∨ final = 'l' then
      let flag := final = 'h'
      let p := csiParam params 0 1
      if p = 1 then [CSIAction.SetDecPrivateMode .ApplicationCursorKeys flag]
      else if p = 2004 then [CSIAction.SetDecPrivateMode .BrackedPaste flag]
      else []
    else [])
  else if intermediates ≠ [] then []
  else if final = 'H' ∨ final = 'f' then
    [CSIAction.SetCursorXY (.Absolute (csiParam params 1 1 - 1))
      (.Absolute (csiParam params 0 1 - 1))]
  else if final = 'A' then [CSIAction.SetCursorXY (.Relative 0) (.Relative (-(csiParam params 0 1)))]
  else if final = 'B' then [CSIAction.SetCursorXY (.Relative 0) (.Relative (csiParam params 0 1))]
  else if final = 'C' then [CSIAction.SetCursorXY (.Relative (csiParam params 0 1)) (.Relative 0)]
  else if final = 'D' then
    [CSIAction.SetCursorXY (.Relative (-(csiParam params 0 1))) (.Relative 0)]
  else if final = 'd' then [CSIAction.LinePosition (.Absolute (csiParam params 0 1 - 1))]
  else if final = 'J' then
    (let p := csiParam params 0 0
     if p = 0 then [CSIAction.EraseInDisplay .Below]
     else if p = 1 then [CSIAction.EraseInDisplay .Above]
     else if p = 2 then [CSIAction.EraseInDisplay .All]
     else if p = 3 then [CSIAction.EraseInDisplay .SavedLines]
     else [])
  else if final = 'K' then
    (let p := csiParam params 0 0
     if p = 0 then [CSIAction.EraseInLine .ToRight]
     else if p = 1 then [CSIAction.EraseInLine .ToLeft]
     else if p = 2 then [CSIAction.EraseInLine .All]
     else [])
  else if final = 'L' then [CSIAction.InsertLines (csiParam params 0 1)]
  else if final = 'M' then [CSIAction.DeleteLines (csiParam params 0 1)]
  else if final = 'S' then [CSIAction.ScrollLines (-(csiParam params 0 1))]
  else if final = 'T' then [CSIAction.ScrollLines (csiParam params 0 1)]
  else if final = 'r' then
    [CSIAction.SetScrollingRegion (csiParam params 0 1 - 1) (csiParam params 1 1 - 1)]
  else if final = 's' then [CSIAction.SaveCursor]
  else if final = 'u' then [CSIAction.RestoreCursor]
  else if final = 'n' then
    (let p := csiParam params 0 0
     if p = 5 then [CSIAction.DeviceStatusReport]
     else if p = 6 then [CSIAction.ReportCursorPosition]
     else [])
  else if final = 'c' then [CSIAction.RequestDeviceAttributes]
  else if final = 'm' then
    (if params = [] then [CSIAction.SetPen CellAttributes.default] else sgrParse params)
  else []

namespace TerminalState

/-- `vte::Perform::csi_dispatch` for `TerminalState`: fold the decoded
actions over the state. -/
def csi_dispatch (t : TerminalState) (params : List Int) (intermediates : List Nat)
    (ignore : Bool) (final : Char) : TerminalState :=
  (csiParse params intermediates ignore final).foldl applyCSIAction t

end TerminalState

/-! ### Parser events and the event step -/

/-- One semantic callback of the byte-stream parser, plus `resize`, which the
host may call between byte batches. -/
inductive Event : Type
  | Print (c : Char)
  | Execute (byte : Nat)
  | Csi (params : List Int) (intermediates : List Nat) (final : Char)
  | Esc (intermediates : List Nat) (byte : Nat)
  | Osc (strs : List String)
  | Resize (rows cols : Nat)
deriving DecidableEq

/-- Apply one event to the terminal state. -/
def stepEvent (t : TerminalState) : Event → TerminalState
  | .Print c => t.print c
  | .Execute b => t.execute b
  | .Csi params intermediates final => t.csi_dispatch params intermediates false final
  | .Esc intermediates b => t.esc_dispatch intermediates b
  | .Osc strs => t.osc_dispatch strs
  | .Resize rows cols => t.resize rows cols

/-- Apply a sequence of events. -/
def stepEvents (t : TerminalState) : List Event → TerminalState
  | [] => t
  | e :: rest => stepEvents (stepEvent t e) rest

/-! ### The byte-stream parser

Modelled from the spec: the byte-level automaton is the external `vte` crate,
not part of this repository.  Spec section 4.D describes it as the standard
ground/escape/CSI/OSC machine that classifies bytes and issues the semantic
callbacks; this model covers the 7-bit byte streams the claims exercise
(printable ASCII, C0 controls, ESC- and CSI-sequences, with CSI parameter
fields separated by `;`, an omitted field reported by the negative sentinel,
and bytes `0x3C-0x3F` collected as intermediates).
-/

/-- The parser states needed for the modelled automaton. -/
inductive VTPState : Type
  | Ground
  | Escape (intermediates : List Nat)
  | CsiEntry (params : List Int) (cur : Option Int) (intermediates : List Nat)
  | OscString (fields : List String) (cur : List Char)
deriving DecidableEq

/-- Modelled from the spec: one byte of the `vte` automaton, returning the new
parser state and the semantic events issued. -/
def vtAdvance (p : VTPState) (b : Nat) : VTPState × List Event :=
  match p with
  | .Ground =>
    if b = 0x1B then (.Escape [], [])
    else if b < 0x20 then (.Ground, [.Execute b])
    else if b < 0x7F then (.Ground, [.Print (Char.ofNat b)])
    else (.Ground, [])
  | .Escape inters =>
    if b = 0x5B then (.CsiEntry [] none [], [])
    else if b = 0x5D then (.OscString [] [], [])
    else if 0x20 ≤ b ∧ b ≤ 0x2F then (.Escape (inters ++ [b]), [])
    else if 0x30 ≤ b ∧ b ≤ 0x7E then (.Ground, [.Esc inters b])
    else (.Ground, [])
  | .CsiEntry params cur inters =>
    if 0x30 ≤ b ∧ b ≤ 0x39 then
      (.CsiEntry params (some (cur.getD 0 * 10 + (b - 0x30))) inters, [])
    else if b = 0x3B then (.CsiEntry (params ++ [cur.getD (-1)]) none inters, [])
    else if 0x3C ≤ b ∧ b ≤ 0x3F then (.CsiEntry params cur (inters ++ [b]), [])
    else if 0x20 ≤ b ∧ b ≤ 0x2F then (.CsiEntry params cur (inters ++ [b]), [])
    else if 0x40 ≤ b ∧ b ≤ 0x7E then
      let fullParams :=
        if params = [] ∧ cur = none then []
        else params ++ [cur.getD (-1)]
      (.Ground, [.Csi fullParams inters (Char.ofNat b)])
    else (.Ground, [])
  | .OscString fields cur =>
    if b = 0x07 then (.Ground, [.Osc (fields ++ [String.mk cur.reverse])])
    else if b = 0x3B then (.OscString (fields ++ [String.mk cur.reverse]) [], [])
    else (.OscString fields (Char.ofNat b :: cur), [])

/-- `Terminal` from `lib.rs`: the state machine plus the parser. -/
structure Terminal : Type where
  state : TerminalState
  vt : VTPState
deriving DecidableEq

namespace Terminal

/-- `Terminal::new`. -/
def new (physical_rows physical_cols scrollback_size : Nat) : Terminal :=
  { state := TerminalState.new physical_rows physical_cols scrollback_size
    vt := .Ground }

/-- Feed one byte: advance the parser and apply the events it issues. -/
def advanceByte (t : Terminal) (b : Nat) : Terminal :=
  let (vt, evs) := vtAdvance t.vt b
  { state := stepEvents t.state evs, vt }

/-- `Terminal::advance_bytes`: feed every byte, then drain the answerback
queue in order as the return value. -/
def advance_bytes (t : Terminal) (bytes : List Nat) : List AnswerBack × Terminal :=
  let t1 := bytes.foldl advanceByte t
  (t1.state.answerback, { t1 with state := { t1.state with answerback := [] } })

end Terminal

/-! ### Well-formedness -/

/-- The screen invariants of spec section 3: at least one row and column, the
visible region always present, and the capacity bound on the stored lines. -/
abbrev Screen.wf (s : Screen) : Prop :=
  1 ≤ s.physical_rows ∧ 1 ≤ s.physical_cols ∧
  s.physical_rows ≤ s.lines.length ∧
  s.lines.length ≤ s.physical_rows + s.scrollback_size

/-- The structural invariants of a terminal state that do not mention the
cursor: both screens well formed with equal dimensions, no alternate-screen
scrollback, and a nonempty scroll region inside the visible rows. -/
abbrev TerminalState.wfLines (t : TerminalState) : Prop :=
  t.screen.wf ∧ t.alt_screen.wf ∧
  t.alt_screen.scrollback_size = 0 ∧
  t.alt_screen.physical_rows = t.screen.physical_rows ∧
  t.alt_screen.physical_cols = t.screen.physical_cols ∧
  0 ≤ t.scroll_region.rstart ∧ t.scroll_region.rstart < t.scroll_region.rend ∧
  t.scroll_region.rend ≤ (t.screen.physical_rows : Int)

/-- The claimed cursor invariant: both coordinates inside the active screen. -/
abbrev TerminalState.cursorInBounds (t : TerminalState) : Prop :=
  t.cursor.x < t.activeScreen.physical_cols ∧
  0 ≤ t.cursor.y ∧ t.cursor.y < (t.activeScreen.physical_rows : Int)

/-- Full well-formedness: structure, cursor, and a restorable saved cursor. -/
abbrev TerminalState.wf (t : TerminalState) : Prop :=
  t.wfLines ∧ t.cursorInBounds ∧ 0 ≤ t.saved_cursor.y

/-- Equal dimensions and stored-line count (shape) of two screens. -/
def Screen.shapeEq (a b : Screen) : Prop :=
  a.physical_rows = b.physical_rows ∧ a.physical_cols = b.physical_cols ∧
  a.scrollback_size = b.scrollback_size ∧ a.lines.length = b.lines.length

/-! ### The conditions under which the claims speak about CSI actions -/

/-- The `Position` values the modelled CSI decoder emits: absolute
coordinates are nonnegative. -/
def nonnegPos : Position → Prop
  | .Absolute v => 0 ≤ v
  | .Relative _ => True

instance nonnegPos.instDecidable : ∀ p, Decidable (nonnegPos p) := fun p => by
  cases p <;> (dsimp only [nonnegPos]; infer_instance)

/-- The shape of actions the modelled CSI decoder can produce. -/
def GoodAction : CSIAction → Prop
  | .SetCursorXY _ y => nonnegPos y
  | .LinePosition row => nonnegPos row
  | .SetScrollingRegion top bottom => 0 ≤ top ∧ 0 ≤ bottom
  | _ => True

instance GoodAction.instDecidable : ∀ a, Decidable (GoodAction a) := fun a => by
  cases a <;> (dsimp only [GoodAction]; infer_instance)

/-- The run-time assertion of `Screen::scroll_up` / `Screen::scroll_down` for
one CSI action: the scroll amount fits in the region being scrolled. -/
def actOk (t : TerminalState) : CSIAction → Prop
  | .DeleteLines n => in_range t.cursor.y t.scroll_region →
      usizeCast n ≤ (t.scroll_region.rend - t.cursor.y).toNat
  | .InsertLines n => in_range t.cursor.y t.scroll_region →
      usizeCast n ≤ (t.scroll_region.rend - t.cursor.y).toNat
  | .ScrollLines amount =>
      (if amount > 0 then usizeCast amount else usizeCast (-amount)) ≤
        (t.scroll_region.rend - t.scroll_region.rstart).toNat
  | _ => True

instance actOk.instDecidable (t : TerminalState) : ∀ a, Decidable (actOk t a) := fun a => by
  cases a <;> (dsimp only [actOk]; infer_instance)

/-! ### Assertion conditions for whole event sequences -/

/-- The scroll assertions hold for a list of CSI actions applied in order. -/
def actionsOk (t : TerminalState) : List CSIAction → Prop
  | [] => True
  | a :: rest => actOk t a ∧ actionsOk (t.applyCSIAction a) rest

instance actionsOk.instDecidable :
    (t : TerminalState) → (l : List CSIAction) → Decidable (actionsOk t l)
  | _, [] => .isTrue trivial
  | t, a :: rest =>
    have : Decidable (actionsOk (t.applyCSIAction a) rest) :=
      actionsOk.instDecidable (t.applyCSIAction a) rest
    inferInstanceAs (Decidable (_ ∧ _))

/-- The run-time assertions of one event: the scroll amounts of its CSI
actions stay inside the scrolled regions, reverse index is not taken from a
row strictly above a nonzero scroll-region top (the code would assert on the
resulting row `-1`), and a resize only grows. -/
def eventOk (t : TerminalState) : Event → Prop
  | .Print _ => True
  | .Execute _ => True
  | .Csi params inters final => actionsOk t (csiParse params inters false final)
  | .Esc inters b => inters = [] ∧ b = 0x4D →
      t.cursor.y = t.scroll_region.rstart ∨ 1 ≤ t.cursor.y
  | .Osc _ => True
  | .Resize r c => t.screen.physical_rows ≤ r ∧ t.screen.physical_cols ≤ c

instance eventOk.instDecidable (t : TerminalState) : ∀ e, Decidable (eventOk t e) := fun e => by
  cases e <;> (dsimp only [eventOk]; infer_instance)

/-- The run-time assertions hold along a whole event sequence. -/
def eventsOk (t : TerminalState) : List Event → Prop
  | [] => True
  | e :: rest => eventOk t e ∧ eventsOk (stepEvent t e) rest

instance eventsOk.instDecidable :
    (t : TerminalState) → (l : List Event) → Decidable (eventsOk t l)
  | _, [] => .isTrue trivial
  | t, e :: rest =>
    have : Decidable (eventsOk (stepEvent t e) rest) :=
      eventsOk.instDecidable (stepEvent t e) rest
    inferInstanceAs (Decidable (_ ∧ _))

/-- Is the event a `resize` call? -/
def isResizeB : Event → Bool
  | .Resize _ _ => true
  | _ => false

/-! ### Reading a cell back -/

/-- The cell stored at visible position `(x, y)` of a screen. -/
def Screen.cellAtS (s : Screen) (x : Nat) (y : Int) : Option Cell :=
  match s.lines.get? (s.phys_row y) with
  | some l => l.cells.get? x
  | none => none

/-- The cell stored at visible position `(x, y)` of the active screen. -/
def TerminalState.cellAt (t : TerminalState) (x : Nat) (y : Int) : Option Cell :=
  t.activeScreen.cellAtS x y

/-- The cursor-motion and pen-changing actions quantified over by the C4
claim ("any sequence of cursor motion and pen-changing (SGR) operations"). -/
def MotionOrPen : CSIAction → Prop
  | .SetPen _ => True
  | .SetForegroundColor _ => True
  | .SetBackgroundColor _ => True
  | .SetIntensity _ => True
  | .SetUnderline _ => True
  | .SetItalic _ => True
  | .SetBlink _ => True
  | .SetReverse _ => True
  | .SetStrikethrough _ => True
  | .SetInvisible _ => True
  | .SetCursorXY _ _ => True
  | .LinePosition _ => True
  | _ => False

instance MotionOrPen.instDecidable : ∀ a, Decidable (MotionOrPen a) := fun a => by
  cases a <;> (dsimp only [MotionOrPen]; infer_instance)

theorem updateAt_length {α : Type} (l : List α) (i : Nat) (f : α → α) :
    (updateAt l i f).length = l.length := by
  induction l generalizing i with
  | nil => rfl
  | cons a l ih =>
    cases i with
    | zero => rfl
    | succ n => simp [updateAt, ih]

theorem eraseAt_length {α : Type} (l : List α) (i : Nat) (h : i < l.length) :
    (eraseAt l i).length = l.length - 1 := by
  induction l generalizing i with
  | nil => simp at h
  | cons a l ih =>
    cases i with
    | zero => simp [eraseAt]
    | succ n =>
      simp only [List.length_cons] at h
      simp [eraseAt, ih n (by omega)]
      omega

theorem insertAt_length {α : Type} (l : List α) (i : Nat) (x : α) (h : i ≤ l.length) :
    (insertAt l i x).length = l.length + 1 := by
  induction l generalizing i with
  | nil =>
    cases i with
    | zero => rfl
    | succ n => simp at h
  | cons a l ih =>
    cases i with
    | zero => rfl
    | succ n =>
      simp only [List.length_cons] at h
      simp [insertAt, ih n (by omega)]

theorem removeN_length {α : Type} (n : Nat) (l : List α) (i : Nat) (h : i + n ≤ l.length) :
    (removeN l i n).length = l.length - n := by
  induction n generalizing l with
  | zero => simp [removeN]
  | succ m ih =>
    have hlt : i < l.length := by omega
    have he := eraseAt_length l i hlt
    simp only [removeN]
    rw [ih (eraseAt l i) (by omega), he]
    omega

theorem insertN_length {α : Type} (n : Nat) (l : List α) (i : Nat) (x : α) (h : i ≤ l.length) :
    (insertN l i n x).length = l.length + n := by
  induction n generalizing l with
  | zero => simp [insertN]
  | succ m ih =>
    have hi := insertAt_length l i x h
    simp only [insertN]
    rw [ih (insertAt l i x) (by omega), hi]
    omega

theorem usizeCast_of_nonneg (n : Int) (h0 : 0 ≤ n) (h1 : n < 18446744073709551616) :
    usizeCast n = n.toNat := by
  unfold usizeCast
  rw [Int.emod_eq_of_lt h0 h1]

theorem setDirtyRange_length (lines : List Line) (a b : Nat) :
    (Screen.setDirtyRange lines a b).length = lines.length := by
  simp [Screen.setDirtyRange]

namespace Screen

/-! ### Projection and length lemmas for the screen operations -/


@[simp] theorem dirty_line_physical_rows (s : Screen) (y : Int) :
    (s.dirty_line y).physical_rows = s.physical_rows := rfl

@[simp] theorem dirty_line_physical_cols (s : Screen) (y : Int) :
    (s.dirty_line y).physical_cols = s.physical_cols := rfl

@[simp] theorem dirty_line_scrollback (s : Screen) (y : Int) :
    (s.dirty_line y).scrollback_size = s.scrollback_size := rfl

@[simp] theorem dirty_line_lines_length (s : Screen) (y : Int) :
    (s.dirty_line y).lines.length = s.lines.length := by
  simp [dirty_line, updateAt_length]

@[simp] theorem set_cell_physical_rows (s : Screen) (x : Nat) (y : Int) (c : Char)
    (attr : CellAttributes) : (s.set_cell x y c attr).physical_rows = s.physical_rows := rfl

@[simp] theorem set_cell_physical_cols (s : Screen) (x : Nat) (y : Int) (c : Char)
    (attr : CellAttributes) : (s.set_cell x y c attr).physical_cols = s.physical_cols := rfl

@[simp] theorem set_cell_scrollback (s : Screen) (x : Nat) (y : Int) (c : Char)
    (attr : CellAttributes) : (s.set_cell x y c attr).scrollback_size = s.scrollback_size := rfl

@[simp] theorem set_cell_lines_length (s : Screen) (x : Nat) (y : Int) (c : Char)
    (attr : CellAttributes) : (s.set_cell x y c attr).lines.length = s.lines.length := by
  simp [set_cell, updateAt_length]

@[simp] theorem clear_line_physical_rows (s : Screen) (y : Int) (cols : Nat × Nat) :
    (s.clear_line y cols).physical_rows = s.physical_rows := rfl

@[simp] theorem clear_line_physical_cols (s : Screen) (y : Int) (cols : Nat × Nat) :
    (s.clear_line y cols).physical_cols = s.physical_cols := rfl

@[simp] theorem clear_line_scrollback (s : Screen) (y : Int) (cols : Nat × Nat) :
    (s.clear_line y cols).scrollback_size = s.scrollback_size := rfl

@[simp] theorem clear_line_lines_length (s : Screen) (y : Int) (cols : Nat × Nat) :
    (s.clear_line y cols).lines.length = s.lines.length := by
  simp [clear_line, updateAt_length]

@[simp] theorem scroll_up_physical_rows (s : Screen) (r : VRange) (n : Nat) :
    (s.scroll_up r n).physical_rows = s.physical_rows := rfl

@[simp] theorem scroll_up_physical_cols (s : Screen) (r : VRange) (n : Nat) :
    (s.scroll_up r n).physical_cols = s.physical_cols := rfl

@[simp] theorem scroll_up_scrollback (s : Screen) (r : VRange) (n : Nat) :
    (s.scroll_up r n).scrollback_size = s.scrollback_size := rfl

@[simp] theorem scroll_down_physical_rows (s : Screen) (r : VRange) (n : Nat) :
    (s.scroll_down r n).physical_rows = s.physical_rows := rfl

@[simp] theorem scroll_down_physical_cols (s : Screen) (r : VRange) (n : Nat) :
    (s.scroll_down r n).physical_cols = s.physical_cols := rfl

@[simp] theorem scroll_down_scrollback (s : Screen) (r : VRange) (n : Nat) :
    (s.scroll_down r n).scrollback_size = s.scrollback_size := rfl

@[simp] theorem resize_physical_rows (s : Screen) (r c : Nat) :
    (s.resize r c).physical_rows = r := rfl

@[simp] theorem resize_physical_cols (s : Screen) (r c : Nat) :
    (s.resize r c).physical_cols = c := rfl

@[simp] theorem resize_scrollback (s : Screen) (r c : Nat) :
    (s.resize r c).scrollback_size = s.scrollback_size := rfl

theorem toNat_sub_of_le {a b : Int} (h0 : 0 ≤ a) (h1 : a ≤ b) :
    (b - a).toNat = b.toNat - a.toNat := by
  omega

theorem scroll_down_aux_length (lines : List Line) (ps mid num : Nat) (x : Line)
    (h1 : mid + num ≤ lines.length) (h2 : ps + num ≤ lines.length) :
    (insertN (removeN (setDirtyRange lines ps mid) mid num) ps num x).length =
      lines.length := by
  have hl1 : (setDirtyRange lines ps mid).length = lines.length := setDirtyRange_length ..
  have hl2 : (removeN (setDirtyRange lines ps mid) mid num).length = lines.length - num := by
    rw [removeN_length num _ mid (by omega), hl1]
  rw [insertN_length num _ ps x (by omega), hl2]
  omega

theorem scroll_up_aux_length (lines : List Line) (ps pe rem num : Nat) (c : Prop)
    [Decidable c] (x : Line) (h1 : ps + rem ≤ lines.length) (h2 : pe ≤ lines.length) :
    (insertN
      (if c then setDirtyRange (removeN (setDirtyRange lines ps pe) ps rem) 0 ps
       else removeN (setDirtyRange lines ps pe) ps rem)
      (pe - rem) num x).length = lines.length - rem + num := by
  have hl1 : (setDirtyRange lines ps pe).length = lines.length := setDirtyRange_length ..
  have hl2 : (removeN (setDirtyRange lines ps pe) ps rem).length = lines.length - rem := by
    rw [removeN_length rem _ ps (by omega), hl1]
  have hl3 : (if c then setDirtyRange (removeN (setDirtyRange lines ps pe) ps rem) 0 ps
      else removeN (setDirtyRange lines ps pe) ps rem).length = lines.length - rem := by
    split
    · rw [setDirtyRange_length, hl2]
    · exact hl2
  rw [insertN_length num _ (pe - rem) x (by omega), hl3]

theorem scroll_down_lines_length (s : Screen) (r : VRange) (n : Nat)
    (hwf : s.wf) (h0 : 0 ≤ r.rstart) (h1 : r.rstart < r.rend)
    (h2 : r.rend ≤ (s.physical_rows : Int)) (hn : n ≤ (r.rend - r.rstart).toNat) :
    (s.scroll_down r n).lines.length = s.lines.length := by
  obtain ⟨hr, hc, hlen, hcap⟩ := hwf
  have hse : r.rstart.toNat ≤ r.rend.toNat := by omega
  have hre : r.rend.toNat ≤ s.physical_rows := by omega
  have hnn : n ≤ r.rend.toNat - r.rstart.toNat := by omega
  show (insertN _ _ _ _).length = _
  simp only [scroll_down, phys_row]
  rw [scroll_down_aux_length _ _ _ _ _ (by omega) (by omega)]

theorem scroll_up_lines_length (s : Screen) (r : VRange) (n : Nat)
    (hwf : s.wf) (h0 : 0 ≤ r.rstart) (h1 : r.rstart < r.rend)
    (h2 : r.rend ≤ (s.physical_rows : Int)) (hn : n ≤ (r.rend - r.rstart).toNat) :
    (s.scroll_up r n).lines.length =
      s.lines.length -
        (if r.rstart > 0 then n
         else if s.lines.length + n ≥ s.physical_rows + s.scrollback_size
         then s.lines.length + n - (s.physical_rows + s.scrollback_size) else 0) + n := by
  obtain ⟨hr, hc, hlen, hcap⟩ := hwf
  have hse : r.rstart.toNat ≤ r.rend.toNat := by omega
  have hre : r.rend.toNat ≤ s.physical_rows := by omega
  have hnn : n ≤ r.rend.toNat - r.rstart.toNat := by omega
  show (insertN _ _ _ _).length = _
  simp only [scroll_up, phys_row, setDirtyRange_length]
  rw [scroll_up_aux_length _ _ _ _ _ _ _ ?hh1 ?hh2]
  case hh1 =>
    by_cases hpos : r.rstart > 0
    · rw [if_pos hpos]
      omega
    · rw [if_neg hpos]
      by_cases hover : s.lines.length + n ≥ s.physical_rows + s.scrollback_size
      · rw [if_pos hover]
        omega
      · rw [if_neg hover]
        omega
  case hh2 => omega

theorem scroll_up_lines_length_bounds (s : Screen) (r : VRange) (n : Nat)
    (hwf : s.wf) (h0 : 0 ≤ r.rstart) (h1 : r.rstart < r.rend)
    (h2 : r.rend ≤ (s.physical_rows : Int)) (hn : n ≤ (r.rend - r.rstart).toNat) :
    s.physical_rows ≤ (s.scroll_up r n).lines.length ∧
    (s.scroll_up r n).lines.length ≤ s.physical_rows + s.scrollback_size := by
  rw [scroll_up_lines_length s r n hwf h0 h1 h2 hn]
  obtain ⟨hr, hc, hlen, hcap⟩ := hwf
  have hse : r.rstart.toNat ≤ r.rend.toNat := by omega
  have hre : r.rend.toNat ≤ s.physical_rows := by omega
  have hnn : n ≤ r.rend.toNat - r.rstart.toNat := by omega
  constructor <;> split <;> try omega
  all_goals split <;> omega

theorem scroll_up_wf (s : Screen) (r : VRange) (n : Nat)
    (hwf : s.wf) (h0 : 0 ≤ r.rstart) (h1 : r.rstart < r.rend)
    (h2 : r.rend ≤ (s.physical_rows : Int)) (hn : n ≤ (r.rend - r.rstart).toNat) :
    (s.scroll_up r n).wf := by
  have hb := scroll_up_lines_length_bounds s r n hwf h0 h1 h2 hn
  exact ⟨hwf.1, hwf.2.1, by simpa using hb.1, by simpa using hb.2⟩

theorem scroll_down_wf (s : Screen) (r : VRange) (n : Nat)
    (hwf : s.wf) (h0 : 0 ≤ r.rstart) (h1 : r.rstart < r.rend)
    (h2 : r.rend ≤ (s.physical_rows : Int)) (hn : n ≤ (r.rend - r.rstart).toNat) :
    (s.scroll_down r n).wf := by
  have hb := scroll_down_lines_length s r n hwf h0 h1 h2 hn
  refine ⟨hwf.1, hwf.2.1, ?_, ?_⟩ <;>
    simp only [scroll_down_physical_rows, scroll_down_scrollback, hb]
  · exact hwf.2.2.1
  · exact hwf.2.2.2

theorem resize_wf (s : Screen) (r c : Nat) (hwf : s.wf) (hr : s.physical_rows ≤ r)
    (hc : 1 ≤ c) : (s.resize r c).wf := by
  obtain ⟨h1, h2, h3, h4⟩ := hwf
  have hgrow : (s.resize r c).lines.length =
      if r > s.physical_rows then s.lines.length + (r - s.physical_rows)
      else s.lines.length := by
    unfold resize
    split
    · simp
    · simp
  refine ⟨?_, hc, ?_, ?_⟩
  · rw [resize_physical_rows]
    omega
  · rw [resize_physical_rows, hgrow]
    by_cases hgt : r > s.physical_rows
    · rw [if_pos hgt]
      omega
    · rw [if_neg hgt]
      omega
  · rw [resize_physical_rows, resize_scrollback, hgrow]
    by_cases hgt : r > s.physical_rows
    · rw [if_pos hgt]
      omega
    · rw [if_neg hgt]
      omega

end Screen

theorem Screen.shapeEq_refl (a : Screen) : a.shapeEq a := ⟨rfl, rfl, rfl, rfl⟩

theorem Screen.shapeEq_trans {a b c : Screen} (h1 : a.shapeEq b) (h2 : b.shapeEq c) :
    a.shapeEq c := by
  obtain ⟨x1, x2, x3, x4⟩ := h1
  obtain ⟨y1, y2, y3, y4⟩ := h2
  exact ⟨x1.trans y1, x2.trans y2, x3.trans y3, x4.trans y4⟩

theorem Screen.wf_of_shapeEq {a b : Screen} (h : a.shapeEq b) (hwf : b.wf) : a.wf := by
  obtain ⟨x1, x2, x3, x4⟩ := h
  exact ⟨x1 ▸ hwf.1, x2 ▸ hwf.2.1, by omega, by omega⟩

theorem Screen.dirty_line_shape (s : Screen) (y : Int) : (s.dirty_line y).shapeEq s :=
  ⟨rfl, rfl, rfl, by simp⟩

theorem Screen.set_cell_shape (s : Screen) (x : Nat) (y : Int) (c : Char)
    (attr : CellAttributes) : (s.set_cell x y c attr).shapeEq s :=
  ⟨rfl, rfl, rfl, by simp⟩

theorem Screen.clear_line_shape (s : Screen) (y : Int) (cols : Nat × Nat) :
    (s.clear_line y cols).shapeEq s :=
  ⟨rfl, rfl, rfl, by simp⟩

theorem Screen.foldl_clear_line_shape (ys : List Int) (c : Nat) (s : Screen) :
    (ys.foldl (fun s y => s.clear_line y (0, c)) s).shapeEq s := by
  induction ys generalizing s with
  | nil => exact Screen.shapeEq_refl s
  | cons y ys ih =>
    exact Screen.shapeEq_trans (ih (s.clear_line y (0, c))) (s.clear_line_shape y _)

namespace TerminalState

@[simp] theorem withActive_pen (t : TerminalState) (f : Screen → Screen) :
    (t.withActive f).pen = t.pen := by
  unfold withActive; split <;> rfl

@[simp] theorem withActive_cursor (t : TerminalState) (f : Screen → Screen) :
    (t.withActive f).cursor = t.cursor := by
  unfold withActive; split <;> rfl

@[simp] theorem withActive_saved_cursor (t : TerminalState) (f : Screen → Screen) :
    (t.withActive f).saved_cursor = t.saved_cursor := by
  unfold withActive; split <;> rfl

@[simp] theorem withActive_wrap_next (t : TerminalState) (f : Screen → Screen) :
    (t.withActive f).wrap_next = t.wrap_next := by
  unfold withActive; split <;> rfl

@[simp] theorem withActive_answerback (t : TerminalState) (f : Screen → Screen) :
    (t.withActive f).answerback = t.answerback := by
  unfold withActive; split <;> rfl

@[simp] theorem withActive_scroll_region (t : TerminalState) (f : Screen → Screen) :
    (t.withActive f).scroll_region = t.scroll_region := by
  unfold withActive; split <;> rfl

@[simp] theorem withActive_application_cursor_keys (t : TerminalState) (f : Screen → Screen) :
    (t.withActive f).application_cursor_keys = t.application_cursor_keys := by
  unfold withActive; split <;> rfl

@[simp] theorem withActive_application_keypad (t : TerminalState) (f : Screen → Screen) :
    (t.withActive f).application_keypad = t.application_keypad := by
  unfold withActive; split <;> rfl

@[simp] theorem withActive_bracketed_paste (t : TerminalState) (f : Screen → Screen) :
    (t.withActive f).bracketed_paste = t.bracketed_paste := by
  unfold withActive; split <;> rfl

@[simp] theorem withActive_alt_screen_is_active (t : TerminalState) (f : Screen → Screen) :
    (t.withActive f).alt_screen_is_active = t.alt_screen_is_active := by
  unfold withActive; split <;> rfl

@[simp] theorem withActive_activeScreen (t : TerminalState) (f : Screen → Screen) :
    (t.withActive f).activeScreen = f t.activeScreen := by
  unfold withActive activeScreen
  by_cases h : t.alt_screen_is_active <;> simp [h]

theorem withActive_screen (t : TerminalState) (f : Screen → Screen) :
    (t.withActive f).screen = if t.alt_screen_is_active then t.screen else f t.screen := by
  unfold withActive
  by_cases h : t.alt_screen_is_active <;> simp [h]

theorem withActive_alt_screen (t : TerminalState) (f : Screen → Screen) :
    (t.withActive f).alt_screen =
      if t.alt_screen_is_active then f t.alt_screen else t.alt_screen := by
  unfold withActive
  by_cases h : t.alt_screen_is_active <;> simp [h]

theorem withActive_screen_shape (t : TerminalState) (f : Screen → Screen)
    (hf : ∀ s, (f s).shapeEq s) :
    (t.withActive f).screen.shapeEq t.screen ∧
    (t.withActive f).alt_screen.shapeEq t.alt_screen := by
  rw [withActive_screen, withActive_alt_screen]
  by_cases h : t.alt_screen_is_active <;>
    simp [h, Screen.shapeEq_refl, hf t.screen, hf t.alt_screen]

/-- Transport `wfLines` along a state change that keeps both screen shapes
and the scroll region. -/
theorem wfLines_of_shape {t t' : TerminalState}
    (hs : t'.screen.shapeEq t.screen) (ha : t'.alt_screen.shapeEq t.alt_screen)
    (hr : t'.scroll_region = t.scroll_region) (h : t.wfLines) : t'.wfLines := by
  obtain ⟨w1, w2, w3, w4, w5, w6, w7, w8⟩ := h
  refine ⟨Screen.wf_of_shapeEq hs w1, Screen.wf_of_shapeEq ha w2, ?_, ?_, ?_, ?_, ?_, ?_⟩
  · rw [ha.2.2.1]; exact w3
  · rw [ha.1, hs.1]; exact w4
  · rw [ha.2.1, hs.2.1]; exact w5
  · rw [hr]; exact w6
  · rw [hr]; exact w7
  · rw [hr, hs.1]; exact w8

/-- The active screen of a well-formed state is well formed. -/
theorem activeScreen_wf (t : TerminalState) (h : t.wfLines) : t.activeScreen.wf := by
  unfold activeScreen
  split
  · exact h.2.1
  · exact h.1

theorem region_le_active_rows (t : TerminalState) (h : t.wfLines) :
    t.scroll_region.rend ≤ (t.activeScreen.physical_rows : Int) := by
  unfold activeScreen
  split
  · rw [h.2.2.2.1]; exact h.2.2.2.2.2.2.2
  · exact h.2.2.2.2.2.2.2

theorem activeScreen_dims_transport {t t' : TerminalState}
    (hs : t'.screen.shapeEq t.screen) (ha : t'.alt_screen.shapeEq t.alt_screen)
    (hf : t'.alt_screen_is_active = t.alt_screen_is_active) :
    t'.activeScreen.physical_rows = t.activeScreen.physical_rows ∧
    t'.activeScreen.physical_cols = t.activeScreen.physical_cols := by
  unfold activeScreen
  rw [hf]
  split
  · exact ⟨ha.1, ha.2.1⟩
  · exact ⟨hs.1, hs.2.1⟩

theorem cursorInBounds_transport {t t' : TerminalState} (hc : t'.cursor = t.cursor)
    (hrows : t'.activeScreen.physical_rows = t.activeScreen.physical_rows)
    (hcols : t'.activeScreen.physical_cols = t.activeScreen.physical_cols)
    (h : t.cursorInBounds) : t'.cursorInBounds := by
  unfold cursorInBounds at h ⊢
  rw [hc, hrows, hcols]
  exact h

/-! Characterization of `set_cursor_pos` -/

theorem set_cursor_pos_cursor (t : TerminalState) (x y : Position) :
    (t.set_cursor_pos x y).cursor =
      ⟨(min (t.resolveX x) ((t.activeScreen.physical_cols : Int) - 1)).toNat,
       min (t.resolveY y) ((t.activeScreen.physical_rows : Int) - 1)⟩ := by
  unfold set_cursor_pos
  simp

theorem set_cursor_pos_fields (t : TerminalState) (x y : Position) :
    (t.set_cursor_pos x y).pen = t.pen ∧
    (t.set_cursor_pos x y).saved_cursor = t.saved_cursor ∧
    (t.set_cursor_pos x y).answerback = t.answerback ∧
    (t.set_cursor_pos x y).scroll_region = t.scroll_region ∧
    (t.set_cursor_pos x y).alt_screen_is_active = t.alt_screen_is_active ∧
    (t.set_cursor_pos x y).wrap_next = false ∧
    (t.set_cursor_pos x y).application_cursor_keys = t.application_cursor_keys ∧
    (t.set_cursor_pos x y).application_keypad = t.application_keypad ∧
    (t.set_cursor_pos x y).bracketed_paste = t.bracketed_paste := by
  unfold set_cursor_pos
  refine ⟨?_, ?_, ?_, ?_, ?_, ?_, ?_, ?_, ?_⟩ <;> simp

theorem set_cursor_pos_shape (t : TerminalState) (x y : Position) :
    (t.set_cursor_pos x y).screen.shapeEq t.screen ∧
    (t.set_cursor_pos x y).alt_screen.shapeEq t.alt_screen := by
  unfold set_cursor_pos
  exact TerminalState.withActive_screen_shape _ _
    (fun s => Screen.shapeEq_trans (Screen.dirty_line_shape _ _) (Screen.dirty_line_shape _ _))

theorem set_cursor_pos_wfLines (t : TerminalState) (x y : Position) (h : t.wfLines) :
    (t.set_cursor_pos x y).wfLines :=
  wfLines_of_shape (set_cursor_pos_shape t x y).1 (set_cursor_pos_shape t x y).2
    (set_cursor_pos_fields t x y).2.2.2.1 h

theorem set_cursor_pos_activeDims (t : TerminalState) (x y : Position) :
    (t.set_cursor_pos x y).activeScreen.physical_rows = t.activeScreen.physical_rows ∧
    (t.set_cursor_pos x y).activeScreen.physical_cols = t.activeScreen.physical_cols :=
  activeScreen_dims_transport (set_cursor_pos_shape t x y).1 (set_cursor_pos_shape t x y).2
    (set_cursor_pos_fields t x y).2.2.2.2.1

theorem set_cursor_pos_cursorInBounds (t : TerminalState) (x y : Position)
    (h : t.wfLines) (hy : 0 ≤ t.resolveY y) :
    (t.set_cursor_pos x y).cursorInBounds := by
  have hwfa := activeScreen_wf t h
  have hdims := set_cursor_pos_activeDims t x y
  have hcur := set_cursor_pos_cursor t x y
  unfold cursorInBounds
  rw [hcur, hdims.1, hdims.2]
  dsimp only
  obtain ⟨hr, hc, _, _⟩ := hwfa
  have hx1 : min (t.resolveX x) ((t.activeScreen.physical_cols : Int) - 1) ≤
      (t.activeScreen.physical_cols : Int) - 1 := min_le_right _ _
  have hy1 : min (t.resolveY y) ((t.activeScreen.physical_rows : Int) - 1) ≤
      (t.activeScreen.physical_rows : Int) - 1 := min_le_right _ _
  have hy2 : 0 ≤ min (t.resolveY y) ((t.activeScreen.physical_rows : Int) - 1) :=
    le_min hy (by omega)
  have hx2 : (min (t.resolveX x) ((t.activeScreen.physical_cols : Int) - 1)).toNat ≤
      ((t.activeScreen.physical_cols : Int) - 1).toNat := Int.toNat_le_toNat hx1
  have hx3 : (((t.activeScreen.physical_cols : Int)) - 1).toNat =
      t.activeScreen.physical_cols - 1 := by omega
  refine ⟨?_, ?_, ?_⟩
  · omega
  · exact hy2
  · exact lt_of_le_of_lt hy1 (sub_one_lt _)

theorem set_cursor_pos_wf (t : TerminalState) (x y : Position) (h : t.wf)
    (hy : 0 ≤ t.resolveY y) : (t.set_cursor_pos x y).wf :=
  ⟨set_cursor_pos_wfLines t x y h.1,
   set_cursor_pos_cursorInBounds t x y h.1 hy,
   (set_cursor_pos_fields t x y).2.1 ▸ h.2.2⟩

/-! Scrolling a sub-region of the scroll region preserves `wfLines`. -/

theorem withActive_scroll_up_wfLines (t : TerminalState) (r : VRange) (n : Nat)
    (h : t.wfLines) (h0 : 0 ≤ r.rstart) (h1 : r.rstart < r.rend)
    (h2 : r.rend ≤ (t.screen.physical_rows : Int)) (hn : n ≤ (r.rend - r.rstart).toNat) :
    (t.withActive (fun s => s.scroll_up r n)).wfLines := by
  obtain ⟨w1, w2, w3, w4, w5, w6, w7, w8⟩ := h
  unfold withActive
  by_cases hf : t.alt_screen_is_active = true
  · rw [if_pos hf]
    exact ⟨w1, Screen.scroll_up_wf _ r n w2 h0 h1 (by rw [w4]; exact h2) hn,
      by simpa using w3, by simpa using w4, by simpa using w5, w6, w7, w8⟩
  · rw [if_neg hf]
    exact ⟨Screen.scroll_up_wf _ r n w1 h0 h1 h2 hn, w2, w3,
      by simpa using w4, by simpa using w5, w6, w7, by simpa using w8⟩

theorem withActive_scroll_down_wfLines (t : TerminalState) (r : VRange) (n : Nat)
    (h : t.wfLines) (h0 : 0 ≤ r.rstart) (h1 : r.rstart < r.rend)
    (h2 : r.rend ≤ (t.screen.physical_rows : Int)) (hn : n ≤ (r.rend - r.rstart).toNat) :
    (t.withActive (fun s => s.scroll_down r n)).wfLines := by
  obtain ⟨w1, w2, w3, w4, w5, w6, w7, w8⟩ := h
  unfold withActive
  by_cases hf : t.alt_screen_is_active = true
  · rw [if_pos hf]
    exact ⟨w1, Screen.scroll_down_wf _ r n w2 h0 h1 (by rw [w4]; exact h2) hn,
      by simpa using w3, by simpa using w4, by simpa using w5, w6, w7, w8⟩
  · rw [if_neg hf]
    exact ⟨Screen.scroll_down_wf _ r n w1 h0 h1 h2 hn, w2, w3,
      by simpa using w4, by simpa using w5, w6, w7, by simpa using w8⟩

/-- A shape-preserving active-screen update keeps the cursor in bounds. -/
theorem withActive_dims_cursor (t : TerminalState) (f : Screen → Screen)
    (hrows : ∀ s, (f s).physical_rows = s.physical_rows)
    (hcols : ∀ s, (f s).physical_cols = s.physical_cols)
    (h : t.cursorInBounds) : (t.withActive f).cursorInBounds := by
  unfold cursorInBounds at h ⊢
  rw [withActive_cursor, withActive_activeScreen, hrows, hcols]
  exact h

theorem scroll_up_t_wf (t : TerminalState) (n : Nat) (h : t.wf)
    (hn : n ≤ (t.scroll_region.rend - t.scroll_region.rstart).toNat) :
    (t.scroll_up n).wf := by
  obtain ⟨hl, hc, hs⟩ := h
  refine ⟨withActive_scroll_up_wfLines t _ n hl hl.2.2.2.2.2.1 hl.2.2.2.2.2.2.1
      hl.2.2.2.2.2.2.2 hn, ?_, ?_⟩
  · exact withActive_dims_cursor t _ (fun s => rfl) (fun s => rfl) hc
  · show (t.withActive _).saved_cursor.y ≥ 0
    rw [withActive_saved_cursor]
    exact hs

theorem scroll_down_t_wf (t : TerminalState) (n : Nat) (h : t.wf)
    (hn : n ≤ (t.scroll_region.rend - t.scroll_region.rstart).toNat) :
    (t.scroll_down n).wf := by
  obtain ⟨hl, hc, hs⟩ := h
  refine ⟨withActive_scroll_down_wfLines t _ n hl hl.2.2.2.2.2.1 hl.2.2.2.2.2.2.1
      hl.2.2.2.2.2.2.2 hn, ?_, ?_⟩
  · exact withActive_dims_cursor t _ (fun s => rfl) (fun s => rfl) hc
  · show (t.withActive _).saved_cursor.y ≥ 0
    rw [withActive_saved_cursor]
    exact hs

theorem new_line_wf (t : TerminalState) (b : Bool) (h : t.wf) : (t.new_line b).wf := by
  have hreg : (1 : Nat) ≤ (t.scroll_region.rend - t.scroll_region.rstart).toNat := by
    have h1 := h.1.2.2.2.2.2.1
    have h2 := h.1.2.2.2.2.2.2.1
    omega
  unfold new_line
  dsimp only
  split
  · have h1 : (t.scroll_up 1).wf := scroll_up_t_wf t 1 h hreg
    apply set_cursor_pos_wf _ _ _ h1
    show (0 : Int) ≤ t.cursor.y
    exact h.2.1.2.1
  · apply set_cursor_pos_wf _ _ _ h
    show (0 : Int) ≤ t.cursor.y + 1
    have hy0 : (0 : Int) ≤ t.cursor.y := h.2.1.2.1
    omega

theorem reverse_index_wf (t : TerminalState) (h : t.wf)
    (hok : t.cursor.y = t.scroll_region.rstart ∨ 1 ≤ t.cursor.y) :
    t.reverse_index.wf := by
  have hreg : (1 : Nat) ≤ (t.scroll_region.rend - t.scroll_region.rstart).toNat := by
    have h1 := h.1.2.2.2.2.2.1
    have h2 := h.1.2.2.2.2.2.2.1
    omega
  unfold reverse_index
  dsimp only
  split
  · have h1 : (t.scroll_down 1).wf := scroll_down_t_wf t 1 h hreg
    apply set_cursor_pos_wf _ _ _ h1
    show (0 : Int) ≤ t.cursor.y
    exact h.2.1.2.1
  · apply set_cursor_pos_wf _ _ _ h
    show (0 : Int) ≤ t.cursor.y - 1
    rename_i hne
    rcases hok with hok | hok
    · exact absurd hok hne
    · have hcheck : (1 : Int) ≤ t.cursor.y := hok
      omega

theorem print_body_wf (t1 : TerminalState) (c : Char) (h1 : t1.wf) :
    (let t2 := t1.withActive (fun s => s.set_cell t1.cursor.x t1.cursor.y c t1.pen)
     if t1.cursor.x + 1 < t1.activeScreen.physical_cols then
       t2.set_cursor_pos (.Relative 1) (.Relative 0)
     else { t2 with wrap_next := true }).wf := by
  dsimp only
  have h2 : (t1.withActive fun s => s.set_cell t1.cursor.x t1.cursor.y c t1.pen).wf := by
    have hshape := withActive_screen_shape t1
      (fun s => s.set_cell t1.cursor.x t1.cursor.y c t1.pen)
      (fun s => Screen.set_cell_shape s _ _ _ _)
    refine ⟨wfLines_of_shape hshape.1 hshape.2 (withActive_scroll_region _ _) h1.1, ?_, ?_⟩
    · exact withActive_dims_cursor t1 _ (fun s => rfl) (fun s => rfl) h1.2.1
    · show (t1.withActive _).saved_cursor.y ≥ 0
      rw [withActive_saved_cursor]
      exact h1.2.2
  split
  · apply set_cursor_pos_wf _ _ _ h2
    exact le_max_right _ 0
  · exact ⟨h2.1, h2.2.1, h2.2.2⟩

theorem print_wf (t : TerminalState) (c : Char) (h : t.wf) : (t.print c).wf := by
  have h1 : (if t.wrap_next then t.new_line true else t).wf := by
    split
    · exact new_line_wf t true h
    · exact h
  exact print_body_wf (if t.wrap_next then t.new_line true else t) c h1

theorem execute_wf (t : TerminalState) (b : Nat) (h : t.wf) : (t.execute b).wf := by
  unfold execute
  split
  · exact new_line_wf t true h
  split
  · apply set_cursor_pos_wf _ _ _ h
    exact le_max_right _ 0
  split
  · apply set_cursor_pos_wf _ _ _ h
    exact le_max_right _ 0
  · exact h

theorem esc_dispatch_wf (t : TerminalState) (inters : List Nat) (b : Nat) (h : t.wf)
    (hok : inters = [] ∧ b = 0x4D →
      t.cursor.y = t.scroll_region.rstart ∨ 1 ≤ t.cursor.y) :
    (t.esc_dispatch inters b).wf := by
  unfold esc_dispatch
  split
  · exact h
  · exact h
  · exact h
  · exact reverse_index_wf t h (hok ⟨rfl, rfl⟩)
  · exact h
  · exact h
  · exact h

theorem osc_dispatch_wf (t : TerminalState) (osc : List String) (h : t.wf) :
    (t.osc_dispatch osc).wf := by
  unfold osc_dispatch
  split
  · exact h
  · exact h

/-- A shape-preserving update of the active screen preserves `wf`. -/
theorem withActive_wf_of_shape (t : TerminalState) (f : Screen → Screen)
    (hf : ∀ s, (f s).shapeEq s) (h : t.wf) : (t.withActive f).wf := by
  have hshape := withActive_screen_shape t f hf
  refine ⟨wfLines_of_shape hshape.1 hshape.2 (withActive_scroll_region _ _) h.1, ?_, ?_⟩
  · exact withActive_dims_cursor t f (fun s => (hf s).1) (fun s => (hf s).2.1) h.2.1
  · show (t.withActive f).saved_cursor.y ≥ 0
    rw [withActive_saved_cursor]
    exact h.2.2

theorem active_rows_eq_screen (t : TerminalState) (h : t.wfLines) :
    t.activeScreen.physical_rows = t.screen.physical_rows := by
  unfold activeScreen
  split
  · exact h.2.2.2.1
  · rfl

theorem resolveY_nonneg (t : TerminalState) (p : Position) (hp : nonnegPos p) :
    0 ≤ t.resolveY p := by
  cases p with
  | Absolute v => exact hp
  | Relative d => exact le_max_right _ 0

theorem region_clamp_ok (top bottom rows : Int) (h1 : 0 ≤ top) (h2 : 0 ≤ bottom)
    (hr : 1 ≤ rows) :
    (0 ≤ (if min top (rows - 1) > min bottom (rows - 1) then min bottom (rows - 1)
          else min top (rows - 1))) ∧
    ((if min top (rows - 1) > min bottom (rows - 1) then min bottom (rows - 1)
      else min top (rows - 1)) <
     (if min top (rows - 1) > min bottom (rows - 1) then min top (rows - 1)
      else min bottom (rows - 1)) + 1) ∧
    ((if min top (rows - 1) > min bottom (rows - 1) then min top (rows - 1)
      else min bottom (rows - 1)) + 1 ≤ rows) := by
  refine ⟨?_, ?_, ?_⟩ <;>
    · by_cases hsw : min top (rows - 1) > min bottom (rows - 1)
      · rw [if_pos hsw]
        omega
      · rw [if_neg hsw]
        omega

theorem applyCSIAction_wf (t : TerminalState) (a : CSIAction) (h : t.wf)
    (hg : GoodAction a) (hok : actOk t a) : (t.applyCSIAction a).wf := by
  cases a with
  | SetPen p => exact h
  | SetForegroundColor color => exact h
  | SetBackgroundColor color => exact h
  | SetIntensity level => exact h
  | SetUnderline level => exact h
  | SetItalic flag => exact h
  | SetBlink flag => exact h
  | SetReverse flag => exact h
  | SetStrikethrough flag => exact h
  | SetInvisible flag => exact h
  | SetCursorXY x y =>
    exact set_cursor_pos_wf t x y h (resolveY_nonneg t y hg)
  | EraseInLine erase =>
    cases erase <;>
      exact withActive_wf_of_shape t _ (fun s => Screen.clear_line_shape s _ _) h
  | EraseInDisplay erase =>
    cases erase with
    | Below =>
      exact withActive_wf_of_shape t _ (fun s => Screen.foldl_clear_line_shape _ _ s) h
    | Above =>
      exact withActive_wf_of_shape t _ (fun s => Screen.foldl_clear_line_shape _ _ s) h
    | All =>
      exact withActive_wf_of_shape t _ (fun s => Screen.foldl_clear_line_shape _ _ s) h
    | SavedLines => exact h
  | SetDecPrivateMode mode flag => cases mode <;> exact h
  | DeviceStatusReport => exact h
  | ReportCursorPosition => exact h
  | SetScrollingRegion top bottom =>
    obtain ⟨hg1, hg2⟩ := hg
    have hrows : 1 ≤ t.activeScreen.physical_rows := (activeScreen_wf t h.1).1
    have hre : t.activeScreen.physical_rows = t.screen.physical_rows :=
      active_rows_eq_screen t h.1
    obtain ⟨w1, w2, w3, w4, w5, _, _, _⟩ := h.1
    have harith := region_clamp_ok top bottom (t.activeScreen.physical_rows : Int)
      hg1 hg2 (by exact_mod_cast hrows)
    refine ⟨⟨w1, w2, w3, w4, w5, ?_, ?_, ?_⟩, h.2.1, h.2.2⟩
    · exact harith.1
    · exact harith.2.1
    · have hps : (t.applyCSIAction (CSIAction.SetScrollingRegion top bottom)).screen =
        t.screen := rfl
      rw [hps, ← hre]
      exact harith.2.2
  | RequestDeviceAttributes => exact h
  | DeleteLines n =>
    show (if in_range t.cursor.y t.scroll_region then _ else t).wf
    split
    · rename_i hin
      have hbound := hok hin
      refine ⟨withActive_scroll_up_wfLines t _ _ h.1 h.2.1.2.1 hin.2
          h.1.2.2.2.2.2.2.2 hbound, ?_, ?_⟩
      · exact withActive_dims_cursor t _ (fun s => rfl) (fun s => rfl) h.2.1
      · show (t.withActive _).saved_cursor.y ≥ 0
        rw [withActive_saved_cursor]
        exact h.2.2
    · exact h
  | InsertLines n =>
    show (if in_range t.cursor.y t.scroll_region then _ else t).wf
    split
    · rename_i hin
      have hbound := hok hin
      refine ⟨withActive_scroll_down_wfLines t _ _ h.1 h.2.1.2.1 hin.2
          h.1.2.2.2.2.2.2.2 hbound, ?_, ?_⟩
      · exact withActive_dims_cursor t _ (fun s => rfl) (fun s => rfl) h.2.1
      · show (t.withActive _).saved_cursor.y ≥ 0
        rw [withActive_saved_cursor]
        exact h.2.2
    · exact h
  | SaveCursor => exact ⟨h.1, h.2.1, h.2.1.2.1⟩
  | RestoreCursor =>
    exact set_cursor_pos_wf t _ _ h h.2.2
  | LinePosition row =>
    exact set_cursor_pos_wf t _ _ h (resolveY_nonneg t row hg)
  | ScrollLines amount =>
    show (if amount > 0 then t.scroll_down (usizeCast amount)
          else t.scroll_up (usizeCast (-amount))).wf
    have hok2 : (if amount > 0 then usizeCast amount else usizeCast (-amount)) ≤
        (t.scroll_region.rend - t.scroll_region.rstart).toNat := hok
    split
    · rename_i hgt
      rw [if_pos hgt] at hok2
      exact scroll_down_t_wf t _ h hok2
    · rename_i hgt
      rw [if_neg hgt] at hok2
      exact scroll_up_t_wf t _ h hok2

theorem resize_t_wf (t : TerminalState) (r c : Nat) (h : t.wf)
    (hr : t.screen.physical_rows ≤ r) (hc : t.screen.physical_cols ≤ c) :
    (t.resize r c).wf := by
  obtain ⟨⟨w1, w2, w3, w4, w5, w6, w7, w8⟩, hcur, hsv⟩ := h
  have hcols1 : 1 ≤ c := le_trans w1.2.1 hc
  refine ⟨⟨Screen.resize_wf _ r c w1 hr hcols1,
      Screen.resize_wf _ r c w2 (by rw [w4]; exact hr) hcols1,
      by simpa using w3, rfl, rfl, w6, w7, ?_⟩, ?_, hsv⟩
  · have hsr : (t.resize r c).scroll_region = t.scroll_region := rfl
    rw [hsr]
    show _ ≤ ((r : Nat) : Int)
    have hw8 : t.scroll_region.rend ≤ (t.screen.physical_rows : Int) := w8
    omega
  · have hadims : (t.resize r c).activeScreen.physical_rows = r ∧
        (t.resize r c).activeScreen.physical_cols = c := by
      unfold resize activeScreen
      dsimp only
      split <;> exact ⟨rfl, rfl⟩
    have hodims : t.activeScreen.physical_rows = t.screen.physical_rows ∧
        t.activeScreen.physical_cols = t.screen.physical_cols := by
      unfold activeScreen
      split
      · exact ⟨w4, w5⟩
      · exact ⟨rfl, rfl⟩
    obtain ⟨hx, hy0, hy1⟩ := hcur
    have ha1 : (t.resize r c).activeScreen.physical_rows = r := hadims.1
    have ha2 : (t.resize r c).activeScreen.physical_cols = c := hadims.2
    have hcx : (t.resize r c).cursor.x = t.cursor.x := rfl
    have hcy : (t.resize r c).cursor.y = t.cursor.y := rfl
    have ho1 : t.activeScreen.physical_rows = t.screen.physical_rows := hodims.1
    have ho2 : t.activeScreen.physical_cols = t.screen.physical_cols := hodims.2
    refine ⟨?_, ?_, ?_⟩
    · rw [hcx, ha2]
      exact lt_of_lt_of_le (ho2 ▸ hx) hc
    · rw [hcy]
      exact hy0
    · rw [hcy, ha1]
      exact lt_of_lt_of_le (ho1 ▸ hy1) (by exact_mod_cast hr)

end TerminalState

theorem csiParam_ge_one (params : List Int) (i : Nat) (dflt : Int) (hd : 1 ≤ dflt) :
    1 ≤ csiParam params i dflt := by
  unfold csiParam
  rcases params.get? i with _ | v
  · exact hd
  · dsimp only
    split
    · exact hd
    · rename_i hv
      omega

theorem mem_ite {α : Type} {c : Prop} [Decidable c] {a : α} {l1 l2 : List α}
    (h : a ∈ (if c then l1 else l2)) : a ∈ l1 ∨ a ∈ l2 := by
  by_cases hc : c
  · rw [if_pos hc] at h
    exact Or.inl h
  · rw [if_neg hc] at h
    exact Or.inr h

theorem mem_ite_singleton {α : Type} {c : Prop} [Decidable c] {a x : α} {l : List α}
    (h : a ∈ (if c then [x] else l)) : a = x ∨ a ∈ l := by
  rcases mem_ite h with h1 | h1
  · exact Or.inl (List.mem_singleton.mp h1)
  · exact Or.inr h1

theorem sgrCode_good (p : Int) : ∀ a ∈ sgrCode p, GoodAction a := by
  intro a ha
  unfold sgrCode at ha
  obtain rfl | ha := mem_ite_singleton ha
  · trivial
  obtain rfl | ha := mem_ite_singleton ha
  · trivial
  obtain rfl | ha := mem_ite_singleton ha
  · trivial
  obtain rfl | ha := mem_ite_singleton ha
  · trivial
  obtain rfl | ha := mem_ite_singleton ha
  · trivial
  obtain rfl | ha := mem_ite_singleton ha
  · trivial
  obtain rfl | ha := mem_ite_singleton ha
  · trivial
  obtain rfl | ha := mem_ite_singleton ha
  · trivial
  obtain rfl | ha := mem_ite_singleton ha
  · trivial
  obtain rfl | ha := mem_ite_singleton ha
  · trivial
  obtain rfl | ha := mem_ite_singleton ha
  · trivial
  obtain rfl | ha := mem_ite_singleton ha
  · trivial
  obtain rfl | ha := mem_ite_singleton ha
  · trivial
  obtain rfl | ha := mem_ite_singleton ha
  · trivial
  obtain rfl | ha := mem_ite_singleton ha
  · trivial
  obtain rfl | ha := mem_ite_singleton ha
  · trivial
  obtain rfl | ha := mem_ite_singleton ha
  · trivial
  obtain rfl | ha := mem_ite_singleton ha
  · trivial
  obtain rfl | ha := mem_ite_singleton ha
  · trivial
  obtain rfl | ha := mem_ite_singleton ha
  · trivial
  obtain rfl | ha := mem_ite_singleton ha
  · trivial
  obtain rfl | ha := mem_ite_singleton ha
  · trivial
  exact absurd ha (List.not_mem_nil a)

theorem sgrParse_good (params : List Int) : ∀ a ∈ sgrParse params, GoodAction a := by
  induction params using sgrParse.induct with
  | case1 =>
    intro a ha
    simp [sgrParse] at ha
  | case2 idx rest ih =>
    intro a ha
    rw [sgrParse] at ha
    rcases List.mem_cons.mp ha with h | h
    · subst h; trivial
    · exact ih a h
  | case3 idx rest ih =>
    intro a ha
    rw [sgrParse] at ha
    rcases List.mem_cons.mp ha with h | h
    · subst h; trivial
    · exact ih a h
  | case4 r g b rest ih =>
    intro a ha
    rw [sgrParse] at ha
    rcases List.mem_cons.mp ha with h | h
    · subst h; trivial
    · exact ih a h
  | case5 r g b rest ih =>
    intro a ha
    rw [sgrParse] at ha
    rcases List.mem_cons.mp ha with h | h
    · subst h; trivial
    · exact ih a h
  | case6 p rest h1 h2 h3 h4 ih =>
    intro a ha
    rw [sgrParse] at ha
    · rcases List.mem_append.mp ha with h | h
      · exact sgrCode_good p a h
      · exact ih a h
    · exact h1
    · exact h2
    · exact h3
    · exact h4

theorem csiParse_good (params : List Int) (inters : List Nat) (ig : Bool) (final : Char) :
    ∀ a ∈ csiParse params inters ig final, GoodAction a := by
  intro a ha
  have hp0 : 1 ≤ csiParam params 0 1 := csiParam_ge_one params 0 1 le_rfl
  have hp1 : 1 ≤ csiParam params 1 1 := csiParam_ge_one params 1 1 le_rfl
  unfold csiParse at ha
  obtain ha | ha := mem_ite ha
  · exact absurd ha (List.not_mem_nil a)
  obtain ha | ha := mem_ite ha
  · obtain ha | ha := mem_ite ha
    · obtain rfl | ha := mem_ite_singleton ha
      · trivial
      obtain rfl | ha := mem_ite_singleton ha
      · trivial
      exact absurd ha (List.not_mem_nil a)
    · exact absurd ha (List.not_mem_nil a)
  obtain ha | ha := mem_ite ha
  · exact absurd ha (List.not_mem_nil a)
  obtain rfl | ha := mem_ite_singleton ha
  · show (0 : Int) ≤ csiParam params 0 1 - 1
    omega
  obtain rfl | ha := mem_ite_singleton ha
  · trivial
  obtain rfl | ha := mem_ite_singleton ha
  · trivial
  obtain rfl | ha := mem_ite_singleton ha
  · trivial
  obtain rfl | ha := mem_ite_singleton ha
  · trivial
  obtain rfl | ha := mem_ite_singleton ha
  · show (0 : Int) ≤ csiParam params 0 1 - 1
    omega
  obtain ha | ha := mem_ite ha
  · obtain rfl | ha := mem_ite_singleton ha
    · trivial
    obtain rfl | ha := mem_ite_singleton ha
    · trivial
    obtain rfl | ha := mem_ite_singleton ha
    · trivial
    obtain rfl | ha := mem_ite_singleton ha
    · trivial
    exact absurd ha (List.not_mem_nil a)
  obtain ha | ha := mem_ite ha
  · obtain rfl | ha := mem_ite_singleton ha
    · trivial
    obtain rfl | ha := mem_ite_singleton ha
    · trivial
    obtain rfl | ha := mem_ite_singleton ha
    · trivial
    exact absurd ha (List.not_mem_nil a)
  obtain rfl | ha := mem_ite_singleton ha
  · trivial
  obtain rfl | ha := mem_ite_singleton ha
  · trivial
  obtain rfl | ha := mem_ite_singleton ha
  · trivial
  obtain rfl | ha := mem_ite_singleton ha
  · trivial
  obtain rfl | ha := mem_ite_singleton ha
  · exact ⟨by omega, by omega⟩
  obtain rfl | ha := mem_ite_singleton ha
  · trivial
  obtain rfl | ha := mem_ite_singleton ha
  · trivial
  obtain ha | ha := mem_ite ha
  · obtain rfl | ha := mem_ite_singleton ha
    · trivial
    obtain rfl | ha := mem_ite_singleton ha
    · trivial
    exact absurd ha (List.not_mem_nil a)
  obtain rfl | ha := mem_ite_singleton ha
  · trivial
  obtain ha | ha := mem_ite ha
  · obtain rfl | ha := mem_ite_singleton ha
    · trivial
    exact sgrParse_good params a ha
  exact absurd ha (List.not_mem_nil a)

theorem actions_fold_wf (acts : List CSIAction) (t : TerminalState) (h : t.wf)
    (hg : ∀ a ∈ acts, GoodAction a) (hok : actionsOk t acts) :
    (acts.foldl TerminalState.applyCSIAction t).wf := by
  induction acts generalizing t with
  | nil => exact h
  | cons a rest ih =>
    exact ih (t.applyCSIAction a)
      (TerminalState.applyCSIAction_wf t a h (hg a (List.mem_cons_self a rest)) hok.1)
      (fun x hx => hg x (List.mem_cons_of_mem a hx)) hok.2

/-- One parser event (or resize) preserves well-formedness when its run-time
assertions hold. -/
theorem stepEvent_wf (t : TerminalState) (e : Event) (h : t.wf) (hok : eventOk t e) :
    (stepEvent t e).wf := by
  cases e with
  | Print c => exact TerminalState.print_wf t c h
  | Execute b => exact TerminalState.execute_wf t b h
  | Csi params inters final =>
    exact actions_fold_wf _ t h (csiParse_good params inters false final) hok
  | Esc inters b => exact TerminalState.esc_dispatch_wf t inters b h hok
  | Osc strs => exact TerminalState.osc_dispatch_wf t strs h
  | Resize r c => exact TerminalState.resize_t_wf t r c h hok.1 hok.2

/-- A whole event sequence preserves well-formedness. -/
theorem stepEvents_wf (evs : List Event) (t : TerminalState) (h : t.wf)
    (hok : eventsOk t evs) : (stepEvents t evs).wf := by
  induction evs generalizing t with
  | nil => exact h
  | cons e rest ih => exact ih (stepEvent t e) (stepEvent_wf t e h hok.1) hok.2

theorem updateAt_get? {α : Type} (l : List α) (i j : Nat) (f : α → α) :
    (updateAt l i f).get? j = if j = i then (l.get? j).map f else l.get? j := by
  induction l generalizing i j with
  | nil => simp [updateAt]
  | cons a l ih =>
    cases i with
    | zero =>
      cases j with
      | zero => simp [updateAt]
      | succ m => simp [updateAt]
    | succ n =>
      cases j with
      | zero => simp [updateAt]
      | succ m =>
        simp only [updateAt, List.get?]
        rw [ih]
        by_cases hj : m = n
        · rw [if_pos hj, if_pos (by omega)]
        · rw [if_neg hj, if_neg (by omega)]

theorem Screen.phys_row_lt (s : Screen) (y : Int) (hy0 : 0 ≤ y)
    (hy1 : y < (s.physical_rows : Int)) (hlen : s.physical_rows ≤ s.lines.length) :
    s.phys_row y < s.lines.length := by
  have h1 : (y.toNat : Int) = y := Int.toNat_of_nonneg hy0
  have h2 : y.toNat < s.physical_rows := by
    have h3 : (y.toNat : Int) < (s.physical_rows : Int) := by rw [h1]; exact hy1
    exact_mod_cast h3
  unfold Screen.phys_row
  calc s.lines.length - s.physical_rows + y.toNat
      < s.lines.length - s.physical_rows + s.physical_rows := Nat.add_lt_add_left h2 _
    _ = s.lines.length := Nat.sub_add_cancel hlen

/-- Looking up the freshly written cell after `set_cell`. -/
theorem Screen.set_cell_cellAtS (s : Screen) (x : Nat) (y : Int) (c : Char)
    (attr : CellAttributes) (hy0 : 0 ≤ y) (hy1 : y < (s.physical_rows : Int))
    (hlen : s.physical_rows ≤ s.lines.length) :
    (s.set_cell x y c attr).cellAtS x y = some (Cell.from_char c attr) := by
  have hidx : s.phys_row y < s.lines.length := s.phys_row_lt y hy0 hy1 hlen
  have hphys : (s.set_cell x y c attr).phys_row y = s.phys_row y := by
    unfold phys_row
    rw [set_cell_lines_length, set_cell_physical_rows]
  unfold cellAtS
  rw [hphys]
  unfold set_cell
  dsimp only
  rw [updateAt_get?, if_pos rfl]
  rcases hl : s.lines.get? (s.phys_row y) with _ | line
  · rw [List.get?_eq_none] at hl
    exact absurd hidx (Nat.not_lt.mpr hl)
  · dsimp only [Option.map]
    set cells := if x ≥ line.cells.length then
        line.cells ++ List.replicate (x + 1 - line.cells.length) Cell.default
      else line.cells with hcells
    have hxlt : x < cells.length := by
      rw [hcells]
      split
      · rw [List.length_append, List.length_replicate]
        omega
      · omega
    rw [updateAt_get?, if_pos rfl]
    rcases hc2 : cells.get? x with _ | cell
    · rw [List.get?_eq_none] at hc2
      exact absurd hxlt (Nat.not_lt.mpr hc2)
    · rfl

/-- `cellAtS` ignores dirty-flag updates. -/
theorem Screen.dirty_line_cellAtS (s : Screen) (y' : Int) (x : Nat) (y : Int) :
    (s.dirty_line y').cellAtS x y = s.cellAtS x y := by
  have hphys : ∀ z, (s.dirty_line y').phys_row z = s.phys_row z := by
    intro z
    unfold phys_row
    rw [dirty_line_lines_length, dirty_line_physical_rows]
  unfold cellAtS
  rw [hphys]
  unfold dirty_line
  dsimp only
  rw [updateAt_get?]
  by_cases hj : s.phys_row y = s.phys_row y'
  · rw [if_pos hj]
    rcases s.lines.get? (s.phys_row y) with _ | line
    · rfl
    · rfl
  · rw [if_neg hj]

/-- `cellAtS` of the active screen is unchanged by `set_cursor_pos`. -/
theorem TerminalState.set_cursor_pos_cellAt (t : TerminalState) (a b : Position)
    (x : Nat) (y : Int) : (t.set_cursor_pos a b).cellAt x y = t.cellAt x y := by
  unfold TerminalState.cellAt TerminalState.set_cursor_pos
  rw [TerminalState.withActive_activeScreen]
  rw [Screen.dirty_line_cellAtS, Screen.dirty_line_cellAtS]
  rfl

theorem TerminalState.new_line_wrap_next (t : TerminalState) (b : Bool) :
    (t.new_line b).wrap_next = false := by
  unfold TerminalState.new_line
  dsimp only
  split
  · exact (TerminalState.set_cursor_pos_fields _ _ _).2.2.2.2.2.1
  · exact (TerminalState.set_cursor_pos_fields _ _ _).2.2.2.2.2.1

/-- The unfolding of `print` for a state with no pending wrap. -/
theorem TerminalState.print_of_not_wrap (t : TerminalState) (c : Char)
    (hw : t.wrap_next = false) :
    t.print c =
      (let t2 := t.withActive (fun s => s.set_cell t.cursor.x t.cursor.y c t.pen)
       if t.cursor.x + 1 < t.activeScreen.physical_cols then
         t2.set_cursor_pos (.Relative 1) (.Relative 0)
       else { t2 with wrap_next := true }) := by
  unfold TerminalState.print
  rw [hw]
  simp

/-- The unfolding of `print` for a state with a pending wrap. -/
theorem TerminalState.print_of_wrap (t : TerminalState) (c : Char)
    (hw : t.wrap_next = true) : t.print c = (t.new_line true).print c := by
  conv_lhs => unfold TerminalState.print
  conv_rhs => unfold TerminalState.print
  rw [hw, TerminalState.new_line_wrap_next]
  simp

/-! ### The claims -/

/-- C3: the spec says the terminal recognizes ESC D (IND) as a line feed and
ESC E (NEL) as CR plus line feed.  The code does not: `esc_dispatch` has no
arm for final bytes `D` (0x44) or `E` (0x45), so both fall into the logging
catch-all and leave the state unchanged.  On the claim's concrete trace
(4×4 grid, scrollback 0, input "a\nb ESC D") the cursor therefore ends at
column 1, row 1 — not row 2 as claimed — and the ESC E variant likewise stays
at (1, 1) instead of moving to (0, 2). -/
theorem c3_esc_ind_nel_not_recognized :
    (∀ t : TerminalState, t.esc_dispatch [] 0x44 = t ∧ t.esc_dispatch [] 0x45 = t) ∧
    ((Terminal.new 4 4 0).advance_bytes (strBytes "a\nb\x1bD")).2.state.cursor =
      ⟨1, 1⟩ ∧
    ((Terminal.new 4 4 0).advance_bytes (strBytes "a\nb\x1bE")).2.state.cursor =
      ⟨1, 1⟩ := by
  refine ⟨fun t => ⟨rfl, rfl⟩, by decide, by decide⟩

/-- C6: the spec says the control byte 0x09 (TAB) advances the cursor to the
next 8-column tab stop.  The code does not: `execute` handles only LF, VT, FF,
CR and BS, so TAB falls into the logging catch-all and leaves the state
unchanged; after printing "boo" a TAB leaves the cursor at column 3 instead of
advancing it to column 8. -/
theorem c6_tab_not_handled :
    (∀ t : TerminalState, t.execute 0x09 = t) ∧
    ((Terminal.new 3 25 0).advance_bytes (strBytes "boo\t")).2.state.cursor =
      ⟨3, 0⟩ := by
  refine ⟨fun t => rfl, by decide⟩

/-- C5 (amended): `key_down` dispatches the Ctrl translation on the SHIFT
modifier, not on the letter's case: Ctrl+Shift subtracts 0x40 and Ctrl alone
subtracts 0x60, in wrapping byte arithmetic, and the resulting code point is
UTF-8 encoded.  For an uppercase letter with Ctrl+Shift, and for a lowercase
letter with Ctrl alone, this produces exactly the claimed single control
byte. -/
theorem c5_ctrl_key_translation (c : Char) :
    (0x41 ≤ c.toNat → c.toNat ≤ 0x5A →
      key_down_bytes (.Char c) ⟨true, false, false, false, true⟩ false =
        [c.toNat - 0x40]) ∧
    (0x61 ≤ c.toNat → c.toNat ≤ 0x7A →
      key_down_bytes (.Char c) ⟨true, false, false, false, false⟩ false =
        [c.toNat - 0x60]) := by
  constructor
  · intro h1 h2
    have hc : c.toNat ≤ 0xff := by omega
    have he : (c.toNat % 256 + 256 - 0x40) % 256 = c.toNat - 0x40 := by omega
    simp only [key_down_bytes, hc, and_true, true_and, if_true, he]
    unfold utf8Encode
    rw [if_pos (show c.toNat - 0x40 < 0x80 by omega)]
  · intro h1 h2
    have hc : c.toNat ≤ 0xff := by omega
    have he : (c.toNat % 256 + 256 - 0x60) % 256 = c.toNat - 0x60 := by omega
    simp only [key_down_bytes, hc, and_true, true_and, false_and, if_false, if_true,
      Bool.false_eq_true, he]
    unfold utf8Encode
    rw [if_pos (show c.toNat - 0x60 < 0x80 by omega)]

/-- C5 witness: Ctrl+Shift+G yields BEL (0x07), as does Ctrl+g. -/
theorem c5_ctrl_key_translation_witness :
    key_down_bytes (.Char 'G') ⟨true, false, false, false, true⟩ false = [0x07] ∧
    key_down_bytes (.Char 'g') ⟨true, false, false, false, false⟩ false = [0x07] :=
  ⟨(c5_ctrl_key_translation 'G').1 (by decide) (by decide),
   (c5_ctrl_key_translation 'g').2 (by decide) (by decide)⟩

/-- C5 counterexample: the claim keys the translation on the letter's case, so
it predicts the single byte 0x01 for Ctrl+'A' even without Shift; the code
instead subtracts 0x60 whenever Shift is absent, producing the two UTF-8 bytes
of U+00E1 for Ctrl+'A'. -/
theorem c5_counterexample :
    key_down_bytes (.Char 'A') ⟨true, false, false, false, false⟩ false =
      [0xC3, 0xA1] ∧
    key_down_bytes (.Char 'A') ⟨true, false, false, false, false⟩ false ≠
      [0x01] := by
  constructor <;> decide

/-- C7: Delete Lines and Insert Lines are no-ops when the cursor row lies
outside the scroll region — the whole terminal state is returned unchanged —
and when the cursor row is inside the region they scroll the sub-region from
the cursor row to the region end up (DL) or down (IL) by the requested
amount on the active screen, via the `i64`-to-`usize` cast of the count. -/
theorem c7_dl_il_scroll_region (t : TerminalState) (n : Int) :
    (¬ in_range t.cursor.y t.scroll_region →
      t.applyCSIAction (.DeleteLines n) = t ∧
      t.applyCSIAction (.InsertLines n) = t) ∧
    (in_range t.cursor.y t.scroll_region →
      t.applyCSIAction (.DeleteLines n) =
        t.withActive
          (fun s => s.scroll_up ⟨t.cursor.y, t.scroll_region.rend⟩ (usizeCast n)) ∧
      t.applyCSIAction (.InsertLines n) =
        t.withActive
          (fun s => s.scroll_down ⟨t.cursor.y, t.scroll_region.rend⟩ (usizeCast n))) := by
  constructor
  · intro h
    constructor
    · simp only [TerminalState.applyCSIAction]
      rw [if_neg h]
    · simp only [TerminalState.applyCSIAction]
      rw [if_neg h]
  · intro h
    constructor
    · simp only [TerminalState.applyCSIAction]
      rw [if_pos h]
    · simp only [TerminalState.applyCSIAction]
      rw [if_pos h]

/-- C7 witness: with the scroll region set to rows 1..3 of a 4×4 terminal the
cursor row 0 is outside and DL does nothing; on a fresh 4×4 terminal row 0 is
inside the default region and DL 1 scrolls rows 0..4 up by one. -/
theorem c7_dl_il_scroll_region_witness :
    (¬ in_range ((TerminalState.new 4 4 0).applyCSIAction
        (.SetScrollingRegion 1 2)).cursor.y
        ((TerminalState.new 4 4 0).applyCSIAction
          (.SetScrollingRegion 1 2)).scroll_region ∧
      ((TerminalState.new 4 4 0).applyCSIAction
          (.SetScrollingRegion 1 2)).applyCSIAction (.DeleteLines 1) =
        (TerminalState.new 4 4 0).applyCSIAction (.SetScrollingRegion 1 2)) ∧
    (in_range (TerminalState.new 4 4 0).cursor.y
        (TerminalState.new 4 4 0).scroll_region ∧
      (TerminalState.new 4 4 0).applyCSIAction (.DeleteLines 1) =
        (TerminalState.new 4 4 0).withActive
          (fun s => s.scroll_up ⟨(TerminalState.new 4 4 0).cursor.y,
            (TerminalState.new 4 4 0).scroll_region.rend⟩ (usizeCast 1))) :=
  ⟨⟨by decide, ((c7_dl_il_scroll_region _ 1).1 (by decide)).1⟩,
   ⟨by decide, ((c7_dl_il_scroll_region _ 1).2 (by decide)).1⟩⟩

/-- C9: the answerbacks are the exact byte strings of the spec — the device
attributes reply ESC [?6c, the DSR-OK reply ESC [0n, and the cursor position
report ESC [row;colR with 1-based row and column — appended to the queue in
order and drained by `advance_bytes` as its return value, as the concrete
query trace ESC [c ESC [5n ESC [6n demonstrates end to end. -/
theorem c9_answerback_bytes (t : TerminalState) :
    t.applyCSIAction .RequestDeviceAttributes =
      { t with answerback :=
          t.answerback ++ [.WriteToPty (strBytes "\x1b[?6c")] } ∧
    t.applyCSIAction .DeviceStatusReport =
      { t with answerback :=
          t.answerback ++ [.WriteToPty (strBytes "\x1b[0n")] } ∧
    t.applyCSIAction .ReportCursorPosition =
      { t with answerback :=
          t.answerback ++ [.WriteToPty (strBytes ("\x1b[" ++
            toString (t.cursor.y + 1) ++ ";" ++ toString (t.cursor.x + 1) ++
            "R"))] } ∧
    ((Terminal.new 4 4 0).advance_bytes
        (strBytes "\x1b[c\x1b[5n\x1b[6n")).1 =
      [.WriteToPty (strBytes "\x1b[?6c"), .WriteToPty (strBytes "\x1b[0n"),
       .WriteToPty (strBytes "\x1b[1;1R")] := by
  refine ⟨rfl, rfl, rfl, by decide⟩

/-- C9 witness: the DSR-OK reply on a fresh 2×2 terminal. -/
theorem c9_answerback_bytes_witness :
    (TerminalState.new 2 2 0).applyCSIAction .DeviceStatusReport =
      { TerminalState.new 2 2 0 with
        answerback := [AnswerBack.WriteToPty (strBytes "\x1b[0n")] } :=
  (c9_answerback_bytes (TerminalState.new 2 2 0)).2.1

/-- A motion or pen action never touches the saved cursor nor the active
screen's dimensions. -/
theorem motionOrPen_frame (t : TerminalState) (a : CSIAction) (h : MotionOrPen a) :
    (t.applyCSIAction a).saved_cursor = t.saved_cursor ∧
    (t.applyCSIAction a).activeScreen.physical_rows =
      t.activeScreen.physical_rows ∧
    (t.applyCSIAction a).activeScreen.physical_cols =
      t.activeScreen.physical_cols := by
  cases a with
  | SetPen p => exact ⟨rfl, rfl, rfl⟩
  | SetForegroundColor color => exact ⟨rfl, rfl, rfl⟩
  | SetBackgroundColor color => exact ⟨rfl, rfl, rfl⟩
  | SetIntensity level => exact ⟨rfl, rfl, rfl⟩
  | SetUnderline level => exact ⟨rfl, rfl, rfl⟩
  | SetItalic flag => exact ⟨rfl, rfl, rfl⟩
  | SetBlink flag => exact ⟨rfl, rfl, rfl⟩
  | SetReverse flag => exact ⟨rfl, rfl, rfl⟩
  | SetStrikethrough flag => exact ⟨rfl, rfl, rfl⟩
  | SetInvisible flag => exact ⟨rfl, rfl, rfl⟩
  | SetCursorXY x y =>
    exact ⟨(TerminalState.set_cursor_pos_fields t x y).2.1,
      (TerminalState.set_cursor_pos_activeDims t x y).1,
      (TerminalState.set_cursor_pos_activeDims t x y).2⟩
  | LinePosition row =>
    exact ⟨(TerminalState.set_cursor_pos_fields t _ _).2.1,
      (TerminalState.set_cursor_pos_activeDims t _ _).1,
      (TerminalState.set_cursor_pos_activeDims t _ _).2⟩
  | EraseInLine e => exact h.elim
  | EraseInDisplay e => exact h.elim
  | SetDecPrivateMode m flag => exact h.elim
  | DeviceStatusReport => exact h.elim
  | ReportCursorPosition => exact h.elim
  | SetScrollingRegion a b => exact h.elim
  | RequestDeviceAttributes => exact h.elim
  | DeleteLines n => exact h.elim
  | InsertLines n => exact h.elim
  | SaveCursor => exact h.elim
  | RestoreCursor => exact h.elim
  | ScrollLines amount => exact h.elim

/-- C4 (amended): SaveCursor followed by any sequence of cursor-motion and
pen-changing actions and then RestoreCursor returns the CURSOR to its saved
value (starting from an in-bounds state).  The pen is not part of the saved
state: SaveCursor records only the cursor position, and RestoreCursor leaves
the pen at whatever the intervening SGR actions set it to. -/
theorem c4_save_restore_cursor (t : TerminalState) (acts : List CSIAction)
    (hwf : t.wf) (hacts : ∀ a ∈ acts, MotionOrPen a) :
    ((acts.foldl TerminalState.applyCSIAction
        (t.applyCSIAction .SaveCursor)).applyCSIAction .RestoreCursor).cursor =
      t.cursor := by
  have hfold : ∀ (l : List CSIAction) (u : TerminalState),
      (∀ a ∈ l, MotionOrPen a) →
      (l.foldl TerminalState.applyCSIAction u).saved_cursor = u.saved_cursor ∧
      (l.foldl TerminalState.applyCSIAction u).activeScreen.physical_rows =
        u.activeScreen.physical_rows ∧
      (l.foldl TerminalState.applyCSIAction u).activeScreen.physical_cols =
        u.activeScreen.physical_cols := by
    intro l
    induction l with
    | nil => exact fun u _ => ⟨rfl, rfl, rfl⟩
    | cons a rest ih =>
      intro u hl
      have h1 := motionOrPen_frame u a (hl a (List.mem_cons_self a rest))
      have h2 := ih (u.applyCSIAction a)
        (fun x hx => hl x (List.mem_cons_of_mem a hx))
      exact ⟨h2.1.trans h1.1, h2.2.1.trans h1.2.1, h2.2.2.trans h1.2.2⟩
  have hsave := hfold acts (t.applyCSIAction .SaveCursor) hacts
  set u := acts.foldl TerminalState.applyCSIAction
    (t.applyCSIAction .SaveCursor) with hu
  have hsc : u.saved_cursor = t.cursor := hsave.1
  have hrows : u.activeScreen.physical_rows = t.activeScreen.physical_rows :=
    hsave.2.1
  have hcols : u.activeScreen.physical_cols = t.activeScreen.physical_cols :=
    hsave.2.2
  show (u.set_cursor_pos (.Absolute (u.saved_cursor.x : Int))
      (.Absolute u.saved_cursor.y)).cursor = t.cursor
  rw [TerminalState.set_cursor_pos_cursor]
  have hrx : u.resolveX (.Absolute (u.saved_cursor.x : Int)) =
      (t.cursor.x : Int) := by
    show (u.saved_cursor.x : Int) = (t.cursor.x : Int)
    rw [hsc]
  have hry : u.resolveY (.Absolute u.saved_cursor.y) = t.cursor.y := by
    show u.saved_cursor.y = t.cursor.y
    rw [hsc]
  rw [hrx, hry, hrows, hcols]
  obtain ⟨hx, hy0, hy1⟩ := hwf.2.1
  have hxle : (t.cursor.x : Int) ≤ (t.activeScreen.physical_cols : Int) - 1 := by
    omega
  have hyle : t.cursor.y ≤ (t.activeScreen.physical_rows : Int) - 1 :=
    Int.le_sub_one_iff.mpr hy1
  rw [min_eq_left hxle, min_eq_left hyle]
  show CursorPosition.mk ((t.cursor.x : Int)).toNat t.cursor.y = t.cursor
  rw [Int.toNat_natCast]

/-- C4 witness: on a fresh 3×3 terminal, saving at (0,0), moving to (2,2) and
bolding the pen, then restoring, puts the cursor back at (0,0). -/
theorem c4_save_restore_cursor_witness :
    (TerminalState.new 3 3 0).wf ∧
    (∀ a ∈ [CSIAction.SetCursorXY (.Absolute 2) (.Absolute 2),
        CSIAction.SetIntensity .Bold], MotionOrPen a) ∧
    (([CSIAction.SetCursorXY (.Absolute 2) (.Absolute 2),
        CSIAction.SetIntensity .Bold].foldl TerminalState.applyCSIAction
          ((TerminalState.new 3 3 0).applyCSIAction
            .SaveCursor)).applyCSIAction .RestoreCursor).cursor =
      (TerminalState.new 3 3 0).cursor :=
  ⟨by decide, by decide,
   c4_save_restore_cursor (TerminalState.new 3 3 0) _ (by decide) (by decide)⟩

/-- C4 counterexample: the claim also promises the PEN returns to its value at
save time; in the code SaveCursor stores only the cursor, so an SGR change
between save and restore survives the restore. -/
theorem c4_counterexample :
    ((((TerminalState.new 2 2 0).applyCSIAction .SaveCursor).applyCSIAction
        (.SetIntensity .Bold)).applyCSIAction .RestoreCursor).pen ≠
      (TerminalState.new 2 2 0).pen := by
  decide

/-- Helper: the second component of an `enumFrom` entry is a list member. -/
theorem mem_enumFrom_snd {α : Type} : ∀ (l : List α) (n : Nat) (x : Nat × α),
    x ∈ l.enumFrom n → x.2 ∈ l
  | [], _, _, h => absurd h (List.not_mem_nil _)
  | a :: l, n, x, h => by
    have h' : x ∈ (n, a) :: l.enumFrom (n + 1) := h
    rcases List.mem_cons.mp h' with h1 | h2
    · rw [h1]; exact List.mem_cons_self a l
    · exact List.mem_cons_of_mem a (mem_enumFrom_snd l (n + 1) x h2)

/-- C10: `clean_dirty_lines` clears the dirty flag of every stored line of the
active screen, scrollback included: immediately afterwards `get_dirty_lines`
is empty and `has_dirty_lines` is false; the active screen keeps its
dimensions and cell contents with only the per-line dirty bits cleared, the
inactive screen and every other field (cursor, pen, saved cursor, scroll
region, answerback queue, wrap flag, modes) are unchanged. -/
theorem c10_clean_dirty_lines (t : TerminalState) :
    t.clean_dirty_lines.get_dirty_lines = [] ∧
    t.clean_dirty_lines.has_dirty_lines = false ∧
    t.clean_dirty_lines.activeScreen =
      { t.activeScreen with
        lines := t.activeScreen.lines.map Line.set_clean } ∧
    t.clean_dirty_lines.screen =
      (if t.alt_screen_is_active then t.screen
       else { t.screen with lines := t.screen.lines.map Line.set_clean }) ∧
    t.clean_dirty_lines.alt_screen =
      (if t.alt_screen_is_active then
        { t.alt_screen with lines := t.alt_screen.lines.map Line.set_clean }
       else t.alt_screen) ∧
    t.clean_dirty_lines.cursor = t.cursor ∧
    t.clean_dirty_lines.pen = t.pen ∧
    t.clean_dirty_lines.saved_cursor = t.saved_cursor ∧
    t.clean_dirty_lines.scroll_region = t.scroll_region ∧
    t.clean_dirty_lines.answerback = t.answerback ∧
    t.clean_dirty_lines.wrap_next = t.wrap_next ∧
    t.clean_dirty_lines.alt_screen_is_active = t.alt_screen_is_active ∧
    t.clean_dirty_lines.application_cursor_keys = t.application_cursor_keys ∧
    t.clean_dirty_lines.application_keypad = t.application_keypad ∧
    t.clean_dirty_lines.bracketed_paste = t.bracketed_paste := by
  have hact : t.clean_dirty_lines.activeScreen =
      { t.activeScreen with
        lines := t.activeScreen.lines.map Line.set_clean } := by
    unfold TerminalState.clean_dirty_lines
    rw [TerminalState.withActive_activeScreen]
  refine ⟨?_, ?_, hact, ?_, ?_, ?_, ?_, ?_, ?_, ?_, ?_, ?_, ?_, ?_, ?_⟩
  · unfold TerminalState.get_dirty_lines
    rw [hact]
    dsimp only
    rw [List.filter_eq_nil_iff]
    intro x hx
    have h2 : x.2 ∈ t.activeScreen.lines.map Line.set_clean :=
      List.mem_of_mem_drop (mem_enumFrom_snd _ 0 x hx)
    obtain ⟨b, hb, heq⟩ := List.mem_map.mp h2
    rw [← heq]
    exact Bool.false_ne_true
  · unfold TerminalState.has_dirty_lines
    rw [hact]
    dsimp only
    rw [List.any_eq_false]
    intro x hx
    have h2 : x ∈ t.activeScreen.lines.map Line.set_clean :=
      List.mem_of_mem_drop hx
    obtain ⟨b, hb, heq⟩ := List.mem_map.mp h2
    rw [← heq]
    exact Bool.false_ne_true
  · exact TerminalState.withActive_screen t _
  · exact TerminalState.withActive_alt_screen t _
  · exact TerminalState.withActive_cursor t _
  · exact TerminalState.withActive_pen t _
  · exact TerminalState.withActive_saved_cursor t _
  · exact TerminalState.withActive_scroll_region t _
  · exact TerminalState.withActive_answerback t _
  · exact TerminalState.withActive_wrap_next t _
  · exact TerminalState.withActive_alt_screen_is_active t _
  · exact TerminalState.withActive_application_cursor_keys t _
  · exact TerminalState.withActive_application_keypad t _
  · exact TerminalState.withActive_bracketed_paste t _

/-- C1 (amended): starting from a well-formed state, after any sequence of
parser events and resizes whose run-time assertions hold and whose resizes do
not shrink the screen, the cursor stays inside the active screen:
cursor.x < physical_cols and 0 ≤ cursor.y < physical_rows.  (A shrinking
resize breaks the invariant — see the counterexample — because `resize` never
re-clamps the cursor.) -/
theorem c1_cursor_in_bounds (t : TerminalState) (evs : List Event) (h : t.wf)
    (hok : eventsOk t evs) : (stepEvents t evs).cursorInBounds :=
  (stepEvents_wf evs t h hok).2.1

/-- C1 witness: a print, a line feed, a CSI cursor-down, a reverse index and a
growing resize on a fresh 2×2 terminal keep the cursor in bounds. -/
theorem c1_cursor_in_bounds_witness :
    (TerminalState.new 2 2 0).wf ∧
    eventsOk (TerminalState.new 2 2 0)
      [.Print 'a', .Execute 0x0A, .Csi [2] [] 'B', .Esc [] 0x4D,
       .Resize 3 4] ∧
    (stepEvents (TerminalState.new 2 2 0)
      [.Print 'a', .Execute 0x0A, .Csi [2] [] 'B', .Esc [] 0x4D,
       .Resize 3 4]).cursorInBounds :=
  ⟨by decide, by decide, c1_cursor_in_bounds _ _ (by decide) (by decide)⟩

/-- C1 counterexample: the claim includes shrinking resizes, but `resize`
adjusts neither cursor coordinate, so moving the cursor to (1,1) on a 2×2
screen and then resizing to 1×1 leaves both coordinates out of bounds. -/
theorem c1_counterexample :
    (TerminalState.new 2 2 0).wf ∧
    ¬ (stepEvents (TerminalState.new 2 2 0)
        [.Csi [2, 2] [] 'H', .Resize 1 1]).cursorInBounds :=
  ⟨by decide, by decide⟩

/-- C8 (amended): starting from a well-formed state, after any sequence of
events whose run-time assertions hold and whose resizes do not shrink the
screen, the primary screen stores at most physical_rows + scrollback_size
lines and the alternate screen (scrollback 0) exactly physical_rows lines.
(A shrinking resize breaks the bound — see the counterexample — because
`Screen::resize` never removes lines.) -/
theorem c8_line_count_bounds (t : TerminalState) (evs : List Event)
    (h : t.wf) (hok : eventsOk t evs) :
    (stepEvents t evs).screen.lines.length ≤
      (stepEvents t evs).screen.physical_rows +
        (stepEvents t evs).screen.scrollback_size ∧
    (stepEvents t evs).alt_screen.lines.length =
      (stepEvents t evs).alt_screen.physical_rows ∧
    (stepEvents t evs).alt_screen.scrollback_size = 0 := by
  have hw := stepEvents_wf evs t h hok
  refine ⟨hw.1.1.2.2.2, ?_, hw.1.2.2.1⟩
  have h1 : (stepEvents t evs).alt_screen.physical_rows ≤
      (stepEvents t evs).alt_screen.lines.length := hw.1.2.1.2.2.1
  have h2 : (stepEvents t evs).alt_screen.lines.length ≤
      (stepEvents t evs).alt_screen.physical_rows +
        (stepEvents t evs).alt_screen.scrollback_size := hw.1.2.1.2.2.2
  have h3 : (stepEvents t evs).alt_screen.scrollback_size = 0 := hw.1.2.2.1
  omega

/-- C8 witness: two line feeds at the bottom of a 2×2 terminal with one line
of scrollback push one line into scrollback (3 = 2 + 1 stored lines), and a
growing resize keeps the bounds. -/
theorem c8_line_count_bounds_witness :
    (TerminalState.new 2 2 1).wf ∧
    eventsOk (TerminalState.new 2 2 1)
      [.Execute 0x0A, .Execute 0x0A, .Resize 3 3] ∧
    ((stepEvents (TerminalState.new 2 2 1)
        [.Execute 0x0A, .Execute 0x0A, .Resize 3 3]).screen.lines.length ≤
      (stepEvents (TerminalState.new 2 2 1)
        [.Execute 0x0A, .Execute 0x0A, .Resize 3 3]).screen.physical_rows +
        (stepEvents (TerminalState.new 2 2 1)
          [.Execute 0x0A, .Execute 0x0A,
           .Resize 3 3]).screen.scrollback_size) ∧
    (stepEvents (TerminalState.new 2 2 1)
        [.Execute 0x0A, .Execute 0x0A, .Resize 3 3]).alt_screen.lines.length =
      (stepEvents (TerminalState.new 2 2 1)
        [.Execute 0x0A, .Execute 0x0A, .Resize 3 3]).alt_screen.physical_rows :=
  ⟨by decide, by decide,
   (c8_line_count_bounds (TerminalState.new 2 2 1) _ (by decide) (by decide)).1,
   (c8_line_count_bounds (TerminalState.new 2 2 1) _ (by decide) (by decide)).2.1⟩

/-- C8 counterexample: after shrinking a 2×2 terminal with no scrollback to a
single row, the primary screen still stores its two lines, exceeding
physical_rows + scrollback_size = 1. -/
theorem c8_counterexample :
    (TerminalState.new 2 2 0).wf ∧
    (stepEvents (TerminalState.new 2 2 0) [.Resize 1 2]).screen.physical_rows +
        (stepEvents (TerminalState.new 2 2 0)
          [.Resize 1 2]).screen.scrollback_size <
      (stepEvents (TerminalState.new 2 2 0) [.Resize 1 2]).screen.lines.length :=
  ⟨by decide, by decide⟩

/-- C2: printing a character in a well-formed state: with a pending wrap the
character is printed after a newline-with-carriage-return, which clears the
wrap flag; otherwise the cell at (cursor.x, cursor.y) is written with the
current pen, and then the cursor advances one column exactly when
cursor.x + 1 < physical_cols, while in the last column the wrap flag is set
and the column does not advance — so writing into the last column does not
immediately wrap, and the next printable character wraps and writes. -/
theorem c2_print_semantics (t : TerminalState) (c : Char) (hwf : t.wf) :
    (t.wrap_next = true →
      t.print c = (t.new_line true).print c ∧
      (t.new_line true).wrap_next = false) ∧
    (t.wrap_next = false →
      (t.print c).cellAt t.cursor.x t.cursor.y =
        some (Cell.from_char c t.pen) ∧
      (t.print c).pen = t.pen ∧
      (t.cursor.x + 1 < t.activeScreen.physical_cols →
        (t.print c).cursor = ⟨t.cursor.x + 1, t.cursor.y⟩ ∧
        (t.print c).wrap_next = false) ∧
      (¬ t.cursor.x + 1 < t.activeScreen.physical_cols →
        (t.print c).cursor = t.cursor ∧
        (t.print c).wrap_next = true)) := by
  constructor
  · intro hw
    exact ⟨t.print_of_wrap c hw, t.new_line_wrap_next true⟩
  · intro hw
    have hy0 : (0 : Int) ≤ t.cursor.y := hwf.2.1.2.1
    have hy1 : t.cursor.y < (t.activeScreen.physical_rows : Int) := hwf.2.1.2.2
    have hlen : t.activeScreen.physical_rows ≤ t.activeScreen.lines.length :=
      (TerminalState.activeScreen_wf t hwf.1).2.2.1
    have hcell : (t.withActive
        (fun s => s.set_cell t.cursor.x t.cursor.y c t.pen)).cellAt
          t.cursor.x t.cursor.y = some (Cell.from_char c t.pen) := by
      unfold TerminalState.cellAt
      rw [TerminalState.withActive_activeScreen]
      exact Screen.set_cell_cellAtS t.activeScreen t.cursor.x t.cursor.y c
        t.pen hy0 hy1 hlen
    rw [TerminalState.print_of_not_wrap t c hw]
    dsimp only
    by_cases hx : t.cursor.x + 1 < t.activeScreen.physical_cols
    · rw [if_pos hx]
      refine ⟨?_, ?_, fun _ => ⟨?_, ?_⟩, fun hcontra => absurd hx hcontra⟩
      · rw [TerminalState.set_cursor_pos_cellAt]
        exact hcell
      · exact (TerminalState.set_cursor_pos_fields _ _ _).1.trans
          (TerminalState.withActive_pen _ _)
      · rw [TerminalState.set_cursor_pos_cursor]
        have hcur2 : (t.withActive
            (fun s => s.set_cell t.cursor.x t.cursor.y c t.pen)).cursor =
            t.cursor := TerminalState.withActive_cursor _ _
        have hcols2 : (t.withActive
            (fun s => s.set_cell t.cursor.x t.cursor.y c
              t.pen)).activeScreen.physical_cols =
            t.activeScreen.physical_cols := by
          rw [TerminalState.withActive_activeScreen]
          exact Screen.set_cell_physical_cols _ _ _ _ _
        have hrows2 : (t.withActive
            (fun s => s.set_cell t.cursor.x t.cursor.y c
              t.pen)).activeScreen.physical_rows =
            t.activeScreen.physical_rows := by
          rw [TerminalState.withActive_activeScreen]
          exact Screen.set_cell_physical_rows _ _ _ _ _
        have hrx : (t.withActive
            (fun s => s.set_cell t.cursor.x t.cursor.y c t.pen)).resolveX
              (.Relative 1) = (t.cursor.x : Int) + 1 := by
          unfold TerminalState.resolveX
          rw [hcur2]
          exact max_eq_left (by omega)
        have hry : (t.withActive
            (fun s => s.set_cell t.cursor.x t.cursor.y c t.pen)).resolveY
              (.Relative 0) = t.cursor.y := by
          unfold TerminalState.resolveY
          rw [hcur2]
          show max (t.cursor.y + 0) 0 = t.cursor.y
          rw [add_zero]
          exact max_eq_left hy0
        rw [hrx, hry, hcols2, hrows2]
        have hxle : (t.cursor.x : Int) + 1 ≤
            (t.activeScreen.physical_cols : Int) - 1 := by omega
        have hyle : t.cursor.y ≤ (t.activeScreen.physical_rows : Int) - 1 :=
          Int.le_sub_one_iff.mpr hy1
        rw [min_eq_left hxle, min_eq_left hyle]
        congr 1
      · exact (TerminalState.set_cursor_pos_fields _ _ _).2.2.2.2.2.1
    · rw [if_neg hx]
      exact ⟨hcell, TerminalState.withActive_pen _ _,
        fun hcontra => absurd hcontra hx,
        fun _ => ⟨TerminalState.withActive_cursor _ _, rfl⟩⟩

/-- C2 witness: on a fresh 2×3 terminal printing 'a' writes the cell at (0,0)
and advances to column 1; on a 2×2 terminal the second character printed lands
in the last column without wrapping, and the third print wraps-and-writes via
a newline-with-CR first. -/
theorem c2_print_semantics_witness :
    ((TerminalState.new 2 3 0).wf ∧
      ((TerminalState.new 2 3 0).print 'a').cellAt 0 0 =
        some (Cell.from_char 'a' CellAttributes.default) ∧
      ((TerminalState.new 2 3 0).print 'a').cursor = ⟨1, 0⟩ ∧
      ((TerminalState.new 2 3 0).print 'a').wrap_next = false) ∧
    ((((TerminalState.new 2 2 0).print 'a').print 'b').wrap_next = true ∧
      (((TerminalState.new 2 2 0).print 'a').print 'b').print 'c' =
        (((((TerminalState.new 2 2 0).print 'a').print 'b').new_line
          true)).print 'c') := by
  have h := c2_print_semantics (TerminalState.new 2 3 0) 'a' (by decide)
  have h2 := h.2 (by decide)
  have hset := h2.2.2.1 (by decide)
  have hwrapstate := c2_print_semantics
    (((TerminalState.new 2 2 0).print 'a').print 'b') 'c' (by decide)
  exact ⟨⟨by decide, h2.1, hset.1, hset.2⟩,
    ⟨by decide, (hwrapstate.1 (by decide)).1⟩⟩

end Miro
